import Mathlib

/-!
# CAN relay node: relay state model and command protocol engine

Shallow embedding of `src/SWE.3/relay/can_relay.c`.

* The file-scope variables `relay_state_mask`, `can_ifname` and `can_sock` are the
  first three fields of `State`.  The remaining fields are observation traces of the
  calls the module makes to its collaborators: the relay hardware backend
  (`relay_hw_init`, `relay_hw_set`), the transport entry point (`can_hw_send`), the
  operating system (`write`, `close`) and the logger (`fprintf (stderr, ...)`).
* Machine integers are `Nat` / `Int`; every place where the C code converts to a
  narrower unsigned type is an explicit `% 2 ^ w`.
* Values returned by the operating system (`socket`, `ioctl`, `bind`, `write`) are
  explicit arguments of the function that performs the call.
-/

namespace CanRelay

/-! ## Constants -/

/-- Maximum number of relays supported (`#define MAX_RELAYS 8u`). -/
def MAX_RELAYS : Nat := 8
/-- CAN identifier of relay commands. -/
def CAN_CMD_ID : Nat := 0x400
/-- CAN identifier of relay status replies. -/
def CAN_STATUS_ID : Nat := 0x401
/-- CAN identifier of the battery level signal. -/
def CAN_BATTERY_ID : Nat := 0x100
/-- CAN identifier of the velocity signal. -/
def CAN_VELOCITY_ID : Nat := 0x101
/-- CAN identifier of the charging-active signal. -/
def CAN_CHARGING_ACTIVE_ID : Nat := 0x102
/-- CAN identifier of the charge-request signal. -/
def CAN_CHARGE_REQUEST_ID : Nat := 0x103

/-- Opcode: set a relay. -/
def OPCODE_SET : Nat := 0x01
/-- Opcode: toggle a relay. -/
def OPCODE_TOGGLE : Nat := 0x02
/-- Opcode: query one relay. -/
def OPCODE_QUERY : Nat := 0x03
/-- Opcode: query all relays. -/
def OPCODE_QUERY_ALL : Nat := 0x04

/-- Status reply tag for the whole mask. -/
def STATUS_ALL : Nat := 0x10
/-- Status reply tag for a single relay. -/
def STATUS_SINGLE : Nat := 0x11

/-- Standard frame format mask of `<linux/can.h>` (`0x000007FFU`, 11 bits). -/
def CAN_SFF_MASK : Nat := 0x7FF
/-- Interface name buffer size of `<net/if.h>`. -/
def IF_NAMESIZE : Nat := 16
/-- Value of `sizeof (struct can_frame)` in `<linux/can.h>`. -/
def SIZEOF_CAN_FRAME : Int := 16

/-! ## Types -/

/-- Logging levels. -/
inductive log_level_t where
  | LOG_ERROR
  | LOG_INFO
  | LOG_DEBUG
  deriving DecidableEq, Repr

/-- Error codes for CAN relay operations. -/
inductive can_relay_error_t where
  | CAN_RELAY_SUCCESS
  | CAN_RELAY_ERROR_CAN_NOT_OPEN
  | CAN_RELAY_ERROR_INVALID_INDEX
  | CAN_RELAY_ERROR_NULL_POINTER
  | CAN_RELAY_ERROR_CAN_SEND_FAILED
  deriving DecidableEq, Repr

/-- Integer value of each enumerator of `can_relay_error_t`. -/
def can_relay_error_t.toInt : can_relay_error_t → Int
  | .CAN_RELAY_SUCCESS => 0
  | .CAN_RELAY_ERROR_CAN_NOT_OPEN => -1
  | .CAN_RELAY_ERROR_INVALID_INDEX => -2
  | .CAN_RELAY_ERROR_NULL_POINTER => -3
  | .CAN_RELAY_ERROR_CAN_SEND_FAILED => -4

/-- Classic CAN frame (`struct can_frame`): identifier, data length code and the
eight data bytes. -/
structure can_frame where
  can_id : Nat
  can_dlc : Nat
  data : List Nat
  deriving DecidableEq, Repr

/-- One invocation of `can_hw_send (id, data, len)`: the identifier, the first `len`
bytes behind `data` (`none` for a null pointer) and `len`. -/
structure send_request where
  id : Nat
  data : Option (List Nat)
  len : Nat
  deriving DecidableEq, Repr

/-- Module state and observation traces. -/
structure State where
  /-- The variable `static uint16_t relay_state_mask`. -/
  relay_state_mask : Nat
  /-- The variable `static char can_ifname[IF_NAMESIZE]`: the bytes of the string it
  holds, without the terminating NUL. -/
  can_ifname : List Nat
  /-- The variable `static int can_sock`. -/
  can_sock : Int
  /-- Number of calls of `relay_hw_init` so far. -/
  hw_init_calls : Nat
  /-- Arguments of the calls of `relay_hw_set` so far, oldest first. -/
  hw_set_calls : List (Nat × Bool)
  /-- Invocations of `can_hw_send` so far, oldest first. -/
  send_calls : List send_request
  /-- Frames handed to `write (can_sock, &frame, sizeof (frame))` so far, oldest first. -/
  written : List can_frame
  /-- File descriptors passed to `close` so far, oldest first. -/
  closed : List Int
  /-- Lines printed by `log_message`, oldest first. -/
  log : List (log_level_t × String)

/-- State of the module when the program starts: the initialisers of the file-scope
variables, and empty traces. -/
def State.start : State where
  relay_state_mask := 0
  can_ifname := [0x63, 0x61, 0x6E, 0x30]
  can_sock := -1
  hw_init_calls := 0
  hw_set_calls := []
  send_calls := []
  written := []
  closed := []
  log := []

/-! ## Logging -/

/-- Log a message with the given level. -/
def log_message (s : State) (level : log_level_t) (msg : String) : State :=
  { s with log := s.log ++ [(level, msg)] }

/-! ## Platform CAN backend -/

/-- The string left in `dst` by `strncpy (dst, src, IF_NAMESIZE - 1)` followed by
`dst[IF_NAMESIZE - 1] = 0`: the first `IF_NAMESIZE - 1` bytes of the string `src`. -/
def copy_ifname (src : List Nat) : List Nat :=
  src.take (IF_NAMESIZE - 1)

/-- Open the CAN socket on the given interface.  `ifname` is `none` for a null pointer
and otherwise the bytes of the string, without the terminating NUL; `socket_ret`,
`ioctl_ret` and `bind_ret` are what `socket`, `ioctl` and `bind` return if they are
called. -/
def can_platform_open (s : State) (ifname : Option (List Nat))
    (socket_ret ioctl_ret bind_ret : Int) : can_relay_error_t × State :=
  let s :=
    match ifname with
    | some name => if name != [] then { s with can_ifname := copy_ifname name } else s
    | none => s
  if s.can_sock ≥ 0 then
    (.CAN_RELAY_SUCCESS, log_message s .LOG_DEBUG "CAN socket already open")
  else
    let s := { s with can_sock := socket_ret }
    if s.can_sock < 0 then
      (.CAN_RELAY_ERROR_CAN_NOT_OPEN, log_message s .LOG_ERROR "Failed to create CAN socket")
    else if ioctl_ret < 0 then
      let s := log_message s .LOG_ERROR "Failed to get CAN interface index"
      let s := { s with closed := s.closed ++ [s.can_sock] }
      let s := { s with can_sock := -1 }
      (.CAN_RELAY_ERROR_CAN_NOT_OPEN, s)
    else if bind_ret < 0 then
      let s := log_message s .LOG_ERROR "Failed to bind CAN socket"
      let s := { s with closed := s.closed ++ [s.can_sock] }
      let s := { s with can_sock := -1 }
      (.CAN_RELAY_ERROR_CAN_NOT_OPEN, s)
    else
      (.CAN_RELAY_SUCCESS, log_message s .LOG_INFO "CAN socket opened successfully")

/-- Close the CAN socket. -/
def can_platform_close (s : State) : State :=
  if s.can_sock ≥ 0 then
    let s := { s with closed := s.closed ++ [s.can_sock] }
    let s := { s with can_sock := -1 }
    log_message s .LOG_INFO "CAN socket closed"
  else s

/-! ## Hardware abstraction (weak defaults) -/

/-- Initialise the relay hardware (weak default: logs only). -/
def relay_hw_init (s : State) : State :=
  let s := { s with hw_init_calls := s.hw_init_calls + 1 }
  log_message s .LOG_DEBUG "relay_hw_init called (weak implementation)"

/-- Drive relay `idx` to `on` (weak default: logs only). -/
def relay_hw_set (s : State) (idx : Nat) (on_ : Bool) : State :=
  let s := { s with hw_set_calls := s.hw_set_calls ++ [(idx, on_)] }
  log_message s .LOG_DEBUG "relay_hw_set called (weak implementation)"

/-- Zero-filled frame, the result of `memset (&frame, 0, sizeof (frame))`. -/
def zero_frame : can_frame where
  can_id := 0
  can_dlc := 0
  data := List.replicate 8 0

/-- The effect of `memcpy (dst, src, n)` on the bytes of `dst`. -/
def memcpy (dst src : List Nat) (n : Nat) : List Nat :=
  src.take n ++ dst.drop n

/-- The frame `can_hw_send` builds once the socket is known to be open. -/
def build_frame (id : Nat) (data : Option (List Nat)) (len : Nat) : can_frame :=
  let frame := zero_frame
  let len := if len > 8 then 8 else len
  let frame := { frame with can_id := id &&& CAN_SFF_MASK }
  let frame := { frame with can_dlc := len }
  match data with
  | some d => if len > 0 then { frame with data := memcpy frame.data d len } else frame
  | none => frame

/-- Send a CAN frame.  `write_ret` is what `write` returns if it is called. -/
def can_hw_send (s : State) (id : Nat) (data : Option (List Nat)) (len : Nat)
    (write_ret : Int) : can_relay_error_t × State :=
  let s := { s with send_calls := s.send_calls ++ [⟨id, data.map (List.take len), len⟩] }
  if s.can_sock < 0 then
    (.CAN_RELAY_ERROR_CAN_SEND_FAILED, log_message s .LOG_ERROR "CAN socket not open")
  else
    let frame := build_frame id data len
    let s := { s with written := s.written ++ [frame] }
    let n := write_ret
    if n != SIZEOF_CAN_FRAME then
      (.CAN_RELAY_ERROR_CAN_SEND_FAILED, log_message s .LOG_ERROR "Failed to write CAN frame")
    else
      (.CAN_RELAY_SUCCESS, log_message s .LOG_DEBUG "CAN frame sent")

/-! ## Helpers -/

/-- Check if a relay index is valid. -/
def valid_index (idx : Nat) : Bool :=
  idx < MAX_RELAYS

/-- Apply a relay state to the hardware. -/
def hw_apply (s : State) (idx : Nat) (on_ : Bool) : State :=
  relay_hw_set s idx on_

/-! ## Public API -/

/-- Initialise the relay module and hardware; `0` on success, `-1` on CAN open
failure. -/
def can_relay_init_ex (s : State) (can_iface : Option (List Nat))
    (socket_ret ioctl_ret bind_ret : Int) : Int × State :=
  let s := { s with relay_state_mask := 0 }
  let s := relay_hw_init s
  let (r, s) := can_platform_open s can_iface socket_ret ioctl_ret bind_ret
  if r != .CAN_RELAY_SUCCESS then
    (-1, log_message s .LOG_ERROR "Failed to initialize CAN relay")
  else
    (0, log_message s .LOG_INFO "CAN relay initialized")

/-- Initialise the relay module with the default CAN interface. -/
def can_relay_init (s : State) (socket_ret ioctl_ret bind_ret : Int) : State :=
  let s := { s with relay_state_mask := 0 }
  let s := relay_hw_init s
  let (_, s) := can_platform_open s none socket_ret ioctl_ret bind_ret
  log_message s .LOG_INFO "CAN relay initialized (legacy)"

/-- Close the relay module and the CAN socket. -/
def can_relay_close (s : State) : State :=
  can_platform_close s

/-- Set a relay to on/off. -/
def can_relay_set (s : State) (idx : Nat) (on_ : Bool) : Bool × State :=
  if !valid_index idx then
    (false, log_message s .LOG_ERROR "Invalid relay index")
  else
    let s :=
      if on_ then
        { s with relay_state_mask :=
            (s.relay_state_mask ||| ((1 <<< idx) % 2 ^ 32)) % 2 ^ 16 }
      else
        { s with relay_state_mask :=
            (s.relay_state_mask &&& ((2 ^ 32 - 1) ^^^ ((1 <<< idx) % 2 ^ 32))) % 2 ^ 16 }
    let s := hw_apply s idx on_
    (true, log_message s .LOG_DEBUG "Relay set")

/-- Toggle a relay. -/
def can_relay_toggle (s : State) (idx : Nat) : Bool × State :=
  if !valid_index idx then
    (false, log_message s .LOG_ERROR "Invalid relay index")
  else
    let new_state := !(((s.relay_state_mask >>> idx) &&& 1) != 0)
    can_relay_set s idx new_state

/-- Get the current relay state. -/
def can_relay_get (s : State) (idx : Nat) : Bool × State :=
  if !valid_index idx then
    (false, log_message s .LOG_ERROR "Invalid relay index")
  else
    (((s.relay_state_mask >>> idx) &&& 1) != 0, s)

/-! ## Status sending -/

/-- Send the status of all relays. -/
def send_status_all (s : State) (write_ret : Int) : State :=
  let data : List Nat :=
    [STATUS_ALL,
     (s.relay_state_mask &&& 0xFF) % 2 ^ 8,
     ((s.relay_state_mask >>> 8) &&& 0xFF) % 2 ^ 8]
  let (_, s) := can_hw_send s CAN_STATUS_ID (some data) 3 write_ret
  log_message s .LOG_DEBUG "Sent all relay status"

/-- Send the status of a single relay. -/
def send_status_single (s : State) (idx : Nat) (write_ret : Int) : State :=
  let data : List Nat :=
    [STATUS_SINGLE,
     idx,
     ((s.relay_state_mask >>> idx) &&& 1) % 2 ^ 8]
  let (_, s) := can_hw_send s CAN_STATUS_ID (some data) 3 write_ret
  log_message s .LOG_DEBUG "Sent single relay status"

/-! ## Command protocol engine -/

/-- Handle an incoming CAN message.  `data` is `none` for a null pointer and
otherwise the bytes behind the pointer; `write_ret` is what `write` returns if a
status frame is written. -/
def can_relay_handle_can_msg (s : State) (can_id : Nat) (data : Option (List Nat))
    (len : Nat) (write_ret : Int) : Bool × State :=
  if can_id != CAN_CMD_ID then
    (false, s)
  else
    match data with
    | none => (true, log_message s .LOG_DEBUG "Malformed CAN message")
    | some d =>
      if len == 0 then
        (true, log_message s .LOG_DEBUG "Malformed CAN message")
      else
        let op := d.getD 0 0
        if op == OPCODE_SET then
          if len < 3 then
            (true, log_message s .LOG_ERROR "Invalid SET command length")
          else if valid_index (d.getD 1 0) then
            let (_, s) := can_relay_set s (d.getD 1 0) (d.getD 2 0 != 0)
            (true, send_status_single s (d.getD 1 0) write_ret)
          else
            (true, log_message s .LOG_ERROR "Invalid relay index in SET")
        else if op == OPCODE_TOGGLE then
          if len < 2 then
            (true, log_message s .LOG_ERROR "Invalid TOGGLE command length")
          else if valid_index (d.getD 1 0) then
            let (_, s) := can_relay_toggle s (d.getD 1 0)
            (true, send_status_single s (d.getD 1 0) write_ret)
          else
            (true, log_message s .LOG_ERROR "Invalid relay index in TOGGLE")
        else if op == OPCODE_QUERY then
          if len < 2 then
            (true, log_message s .LOG_ERROR "Invalid QUERY command length")
          else if valid_index (d.getD 1 0) then
            (true, send_status_single s (d.getD 1 0) write_ret)
          else
            (true, log_message s .LOG_ERROR "Invalid relay index in QUERY")
        else if op == OPCODE_QUERY_ALL then
          (true, send_status_all s write_ret)
        else
          (true, log_message s .LOG_DEBUG "Unknown opcode received")

/-- Set all relays by bitmask. -/
def can_relay_set_mask (s : State) (mask : Nat) : Bool × State :=
  let s := (List.range MAX_RELAYS).foldl
    (fun s i => hw_apply s i (((mask >>> i) &&& 1) != 0)) s
  let s := { s with relay_state_mask := (mask &&& ((1 <<< MAX_RELAYS) - 1)) % 2 ^ 16 }
  (true, log_message s .LOG_DEBUG "Relay mask set")

/-! ## Signal sending functions -/

/-- Byte order of the platform the module is compiled for. -/
inductive byte_order where
  | little_endian
  | big_endian
  deriving DecidableEq, Repr

/-- Object representation of a 32-bit object whose value has the bit pattern `bits`:
its four bytes in memory order.  A `float` argument is represented by its IEEE-754
single precision bit pattern, which is all that `memcpy (data, &velocity, 4)` reads. -/
def object_bytes (bo : byte_order) (bits : Nat) : List Nat :=
  let le := [bits % 2 ^ 8, (bits / 2 ^ 8) % 2 ^ 8, (bits / 2 ^ 16) % 2 ^ 8,
    (bits / 2 ^ 24) % 2 ^ 8]
  match bo with
  | .little_endian => le
  | .big_endian => le.reverse

/-- The 32-bit pattern whose object representation is the given four bytes. -/
def object_value (bo : byte_order) (bytes : List Nat) : Nat :=
  let le :=
    match bo with
    | .little_endian => bytes
    | .big_endian => bytes.reverse
  le.getD 0 0 + 2 ^ 8 * le.getD 1 0 + 2 ^ 16 * le.getD 2 0 + 2 ^ 24 * le.getD 3 0

/-- Value of an IEEE-754 single precision (binary32) bit pattern as a rational number;
`none` for infinities and NaN. -/
def ieee754_single_value (bits : Nat) : Option ℚ :=
  let sign : Nat := (bits / 2 ^ 31) % 2
  let e : Nat := (bits / 2 ^ 23) % 2 ^ 8
  let m : Nat := bits % 2 ^ 23
  let sg : ℚ := if sign = 1 then -1 else 1
  if e = 255 then none
  else if e = 0 then some (sg * ((m : ℚ) / 2 ^ 23) * (2 : ℚ) ^ (-126 : Int))
  else some (sg * (1 + (m : ℚ) / 2 ^ 23) * (2 : ℚ) ^ ((e : Int) - 127))

/-- Send the battery level signal. -/
def send_battery_level (s : State) (level : Nat) (write_ret : Int) :
    can_relay_error_t × State :=
  let data : List Nat := [level]
  let (ret, s) := can_hw_send s CAN_BATTERY_ID (some data) 1 write_ret
  if ret == .CAN_RELAY_SUCCESS then
    (ret, log_message s .LOG_DEBUG "Battery level sent")
  else
    (ret, s)

/-- Send the velocity signal.  `velocity` is the bit pattern of the `float` argument. -/
def send_velocity (s : State) (bo : byte_order) (velocity : Nat) (write_ret : Int) :
    Int × State :=
  let data : List Nat := memcpy (List.replicate 4 0) (object_bytes bo velocity) 4
  let (r, s) := can_hw_send s CAN_VELOCITY_ID (some data) 4 write_ret
  let ret : Int := r.toInt
  if ret == 0 then
    (ret, log_message s .LOG_DEBUG "Velocity sent")
  else
    (ret, s)

/-- Send the charging-active signal. -/
def send_charging_active (s : State) (active : Bool) (write_ret : Int) : Int × State :=
  let data : List Nat := [if active then 1 else 0]
  let (r, s) := can_hw_send s CAN_CHARGING_ACTIVE_ID (some data) 1 write_ret
  let ret : Int := r.toInt
  if ret == 0 then
    (ret, log_message s .LOG_DEBUG "Charging active sent")
  else
    (ret, s)

/-- Send the charge-request signal. -/
def send_charge_request (s : State) (request : Bool) (write_ret : Int) : Int × State :=
  let data : List Nat := [if request then 1 else 0]
  let (r, s) := can_hw_send s CAN_CHARGE_REQUEST_ID (some data) 1 write_ret
  let ret : Int := r.toInt
  if ret == 0 then
    (ret, log_message s .LOG_DEBUG "Charge request sent")
  else
    (ret, s)

/-! ## Ingress adapter (`ethernet_communication_handler.c`)

C strings are lists of characters without the terminating NUL; a pointer into a string
is the part of the string from that position on.  The C library functions `atoi` and
`atof` are arguments of the functions that call them; `atof` followed by the conversion
to `float` yields the bit pattern of the result. -/

/-- Size of the signal name buffer. -/
def SIGNAL_NAME_MAX_LEN : Nat := 50
/-- Size of the receive buffer. -/
def BUFFER_SIZE : Nat := 1024

/-- Whether the string `str` begins with the string `pat`. -/
def starts_with : List Char → List Char → Bool
  | _, [] => true
  | [], _ :: _ => false
  | c :: cs, p :: ps => c == p && starts_with cs ps

/-- The C library function `strstr (haystack, needle)`: the part of `haystack` from the
first occurrence of `needle` on, `none` (a null pointer) when there is none. -/
def strstr : List Char → List Char → Option (List Char)
  | [], needle => if starts_with [] needle then some [] else none
  | c :: cs, needle =>
    if starts_with (c :: cs) needle then some (c :: cs) else strstr cs needle

/-- The loop `while (*value_start == ' ') value_start++`. -/
def skip_spaces : List Char → List Char
  | [] => []
  | c :: cs => if c == ' ' then skip_spaces cs else c :: cs

/-- The member of the union `val` that was written last, with its value; a `float` is
represented by its bit pattern. -/
inductive value_t where
  | i (n : Int)
  | f (bits : Nat)
  | b (v : Bool)
  deriving DecidableEq, Repr

/-- Read the member `i` of the union. -/
def value_t.as_int : value_t → Int
  | .i n => n
  | _ => 0

/-- Read the member `f` of the union. -/
def value_t.as_float : value_t → Nat
  | .f bits => bits
  | _ => 0

/-- Read the member `b` of the union. -/
def value_t.as_bool : value_t → Bool
  | .b v => v
  | _ => false

/-- Extract the signal name: `some name` when the function returns true, with `name`
the contents of the `signal` buffer, and `none` when it returns false. -/
def extract_signal (json : List Char) : Option (List Char) :=
  match strstr json "\"signal\"".toList with
  | none => none
  | some signal_start =>
    match strstr signal_start "\"".toList with
    | none => none
    | some signal_start =>
      let signal_start := signal_start.tail
      match strstr signal_start "\"".toList with
      | none => none
      | some signal_end =>
        let len := signal_start.length - signal_end.length
        if len < SIGNAL_NAME_MAX_LEN then
          some (signal_start.take len)
        else
          none

/-- Extract the value for the given signal name: `some (value, type)` when the function
returns true, `none` when it returns false. -/
def extract_value (atoi : List Char → Int) (atof : List Char → Nat)
    (json signal : List Char) : Option (value_t × Int) :=
  match strstr json "\"value\"".toList with
  | none => none
  | some value_start =>
    match strstr value_start ":".toList with
    | none => none
    | some value_start =>
      let value_start := skip_spaces value_start.tail
      if signal = "battery_level".toList then
        some (.i (atoi value_start), 0)
      else if signal = "velocity".toList then
        some (.f (atof value_start), 1)
      else if signal = "charging_active".toList ∨ signal = "charge_request".toList then
        if (strstr value_start "true".toList).isSome ∨ (strstr value_start "1".toList).isSome
        then some (.b true, 2)
        else some (.b false, 2)
      else
        none

/-- What `parse_json` returns and what it leaves in its output arguments. -/
structure parse_output where
  /-- The returned `int`: `0` on success and `-1` otherwise. -/
  result : Int
  /-- Contents of the `signal` buffer, when it was written. -/
  signal : Option (List Char)
  /-- Contents of `*value` and `*type`, when they were written. -/
  value : Option (value_t × Int)
  deriving DecidableEq, Repr

/-- Simple JSON parser for the form `("signal": "name", "value": value)` in braces.
`json` is `none` for a null pointer. -/
def parse_json (atoi : List Char → Int) (atof : List Char → Nat)
    (json : Option (List Char)) : parse_output :=
  match json with
  | none => ⟨-1, none, none⟩
  | some json =>
    match extract_signal json with
    | none => ⟨-1, none, none⟩
    | some signal =>
      match extract_value atoi atof json signal with
      | none => ⟨-1, some signal, none⟩
      | some v => ⟨0, some signal, some v⟩

/-- Serve one client connection.  `read_ret` is what `read` returns and `bytes` are the
bytes it stored in the buffer; `write_ret` is what `write` returns if a CAN frame is
written. -/
def handle_client (atoi : List Char → Int) (atof : List Char → Nat) (bo : byte_order)
    (s : State) (client_sock : Int) (read_ret : Int) (bytes : List Char)
    (write_ret : Int) : State :=
  let s :=
    if read_ret > 0 then
      let buffer := (bytes.take read_ret.toNat).takeWhile (fun c => c != Char.ofNat 0)
      let out := parse_json atoi atof (some buffer)
      if out.result == 0 then
        match out.signal, out.value with
        | some signal, some (val, type) =>
          if signal = "battery_level".toList ∧ type = 0 then
            (send_battery_level s (val.as_int % 2 ^ 8).toNat write_ret).2
          else if signal = "velocity".toList ∧ type = 1 then
            (send_velocity s bo val.as_float write_ret).2
          else if signal = "charging_active".toList ∧ type = 2 then
            (send_charging_active s val.as_bool write_ret).2
          else if signal = "charge_request".toList ∧ type = 2 then
            (send_charge_request s val.as_bool write_ret).2
          else
            s
        | _, _ => s
      else s
    else s
  { s with closed := s.closed ++ [client_sock] }

/-! ## Hardware drive state and call sequences -/

/-- Drive state of relay `i` as the hardware backend sees it: the `on` argument of
the most recent call `relay_hw_set (i, on)`, and off when the relay was never
driven. -/
def hw_drive_state (calls : List (Nat × Bool)) (i : Nat) : Bool :=
  calls.foldl (fun st c => if c.1 = i then c.2 else st) false

/-- The relay mask and the hardware agree: for every relay `i < MAX_RELAYS` the drive
state equals bit `i` of `relay_state_mask`. -/
def in_sync (s : State) : Prop :=
  ∀ i, i < MAX_RELAYS → hw_drive_state s.hw_set_calls i = s.relay_state_mask.testBit i

instance (s : State) : Decidable (in_sync s) :=
  inferInstanceAs (Decidable (∀ i, i < MAX_RELAYS → _))

/-- Every relay `i < MAX_RELAYS` is driven off (or was never driven). -/
def all_off (s : State) : Prop :=
  ∀ i, i < MAX_RELAYS → hw_drive_state s.hw_set_calls i = false

instance (s : State) : Decidable (all_off s) :=
  inferInstanceAs (Decidable (∀ i, i < MAX_RELAYS → _))

/-- One call of the public relay API, with its arguments and with the values the
operating system returns during the call. -/
inductive api_call where
  | init (socket_ret ioctl_ret bind_ret : Int)
  | init_ex (can_iface : Option (List Nat)) (socket_ret ioctl_ret bind_ret : Int)
  | set (idx : Nat) (on_ : Bool)
  | toggle (idx : Nat)
  | set_mask (mask : Nat)
  | handle_can_msg (can_id : Nat) (data : Option (List Nat)) (len : Nat) (write_ret : Int)

/-- Whether the call is `can_relay_init` or `can_relay_init_ex`. -/
def api_call.is_init : api_call → Bool
  | .init _ _ _ => true
  | .init_ex _ _ _ _ => true
  | _ => false

/-- State after one API call. -/
def api_call.apply (s : State) : api_call → State
  | .init socket_ret ioctl_ret bind_ret => can_relay_init s socket_ret ioctl_ret bind_ret
  | .init_ex can_iface socket_ret ioctl_ret bind_ret =>
    (can_relay_init_ex s can_iface socket_ret ioctl_ret bind_ret).2
  | .set idx on_ => (can_relay_set s idx on_).2
  | .toggle idx => (can_relay_toggle s idx).2
  | .set_mask mask => (can_relay_set_mask s mask).2
  | .handle_can_msg can_id data len write_ret =>
    (can_relay_handle_can_msg s can_id data len write_ret).2

/-- State after a sequence of API calls. -/
def run_calls (s : State) (calls : List api_call) : State :=
  calls.foldl api_call.apply s

/-- Every `can_relay_init` / `can_relay_init_ex` call of the sequence is made while all
relays are driven off. -/
def inits_when_off : State → List api_call → Prop
  | _, [] => True
  | s, c :: cs => (c.is_init = true → all_off s) ∧ inits_when_off (c.apply s) cs

/-- The condition `inits_when_off` can be checked by running the calls. -/
def inits_when_off_decidable :
    (s : State) → (cs : List api_call) → Decidable (inits_when_off s cs)
  | _, [] => isTrue trivial
  | s, c :: cs =>
    have := inits_when_off_decidable (c.apply s) cs
    inferInstanceAs (Decidable ((c.is_init = true → all_off s) ∧ inits_when_off (c.apply s) cs))

instance (s : State) (cs : List api_call) : Decidable (inits_when_off s cs) :=
  inits_when_off_decidable s cs

/-- Every AllStatus reply recorded so far, as a `can_hw_send` request and as a frame
handed to `write`, carries a zero mask high byte (the third payload byte). -/
def all_status_high_zero (s : State) : Prop :=
  (∀ r ∈ s.send_calls, ∀ lo hi, r.data = some [STATUS_ALL, lo, hi] → hi = 0) ∧
  (∀ f ∈ s.written, ∀ lo hi tl, f.data = STATUS_ALL :: lo :: hi :: tl → hi = 0)

/-! ## Abbreviations used in the statements -/

/-- The value `can_relay_set` assigns to `relay_state_mask` for a valid index: the
two branches of its `if (on)`. -/
def set_result_mask (m idx : Nat) (on_ : Bool) : Nat :=
  if on_ then (m ||| ((1 <<< idx) % 2 ^ 32)) % 2 ^ 16
  else (m &&& ((2 ^ 32 - 1) ^^^ ((1 <<< idx) % 2 ^ 32))) % 2 ^ 16

/-! ## Bit-level lemmas -/

/-- The C expression `(m >> i) & 1u`, converted to `bool`, is bit `i` of `m`. -/
theorem shift_and_one_ne_zero (m i : Nat) : (((m >>> i) &&& 1) != 0) = m.testBit i := by
  unfold Nat.testBit
  rw [Nat.and_comm]

/-- The C expression `(m >> i) & 1u` is `1` when bit `i` of `m` is set and `0`
otherwise. -/
theorem shift_and_one_val (m i : Nat) :
    ((m >>> i) &&& 1) = if m.testBit i then 1 else 0 := by
  have h := Nat.and_one_is_mod (m >>> i)
  rcases Nat.mod_two_eq_zero_or_one (m >>> i) with h2 | h2 <;>
    simp [Nat.testBit, h, h2, Nat.and_comm 1]

/-- For a valid index, `1u << i` does not overflow 32 bits. -/
theorem one_shl_mod (i : Nat) (hi : i < 8) : (1 <<< i) % 2 ^ 32 = 2 ^ i := by
  rw [Nat.one_shiftLeft]
  exact Nat.mod_eq_of_lt (Nat.pow_lt_pow_right (by norm_num) (by omega))

/-- Bits of a 16-bit value at positions 16 and above are clear. -/
theorem testBit_high (m j : Nat) (hm : m < 2 ^ 16) (hj : ¬ j < 16) :
    m.testBit j = false :=
  Nat.testBit_lt_two_pow
    (lt_of_lt_of_le hm (Nat.pow_le_pow_right (by norm_num) (by omega)))

/-- Bits of the mask after `relay_state_mask |= (1u << i)`. -/
theorem set_bit_testBit (m i j : Nat) (hm : m < 2 ^ 16) (hi : i < 8) :
    ((m ||| ((1 <<< i) % 2 ^ 32)) % 2 ^ 16).testBit j
      = (m.testBit j || decide (j = i)) := by
  rw [one_shl_mod i hi, Nat.testBit_mod_two_pow, Nat.testBit_or, Nat.testBit_two_pow]
  by_cases hj : j < 16
  · simp [hj, eq_comm]
  · have h1 := testBit_high m j hm hj
    have h2 : ¬ (i = j) := by omega
    have h3 : ¬ (j = i) := by omega
    simp [*]

/-- Bits of the mask after `relay_state_mask &= ~(1u << i)`. -/
theorem clear_bit_testBit (m i j : Nat) (hm : m < 2 ^ 16) (hi : i < 8) :
    ((m &&& ((2 ^ 32 - 1) ^^^ ((1 <<< i) % 2 ^ 32))) % 2 ^ 16).testBit j
      = (m.testBit j && !decide (j = i)) := by
  rw [one_shl_mod i hi, Nat.testBit_mod_two_pow, Nat.testBit_and, Nat.testBit_xor,
    Nat.testBit_two_pow, Nat.testBit_two_pow_sub_one]
  by_cases hj : j < 16
  · have h32 : j < 32 := by omega
    simp [hj, h32, eq_comm]
  · have h1 := testBit_high m j hm hj
    simp [*]

/-! ## Effect of the relay state model operations -/

/-- Bits of the mask stored by `can_relay_set`. -/
theorem set_result_mask_testBit (m i j : Nat) (b : Bool) (hm : m < 2 ^ 16) (hi : i < 8) :
    (set_result_mask m i b).testBit j = if j = i then b else m.testBit j := by
  cases b
  · simp only [set_result_mask, Bool.false_eq_true, if_false]
    rw [clear_bit_testBit m i j hm hi]
    by_cases h : j = i <;> simp [h]
  · simp only [set_result_mask, if_true]
    rw [set_bit_testBit m i j hm hi]
    by_cases h : j = i <;> simp [h]

/-- The mask stored by `can_relay_set` fits in 16 bits. -/
theorem set_result_mask_lt (m i : Nat) (b : Bool) : set_result_mask m i b < 2 ^ 16 := by
  cases b <;> simp only [set_result_mask, Bool.false_eq_true, if_false, if_true] <;>
    exact Nat.mod_lt _ (by norm_num)

/-- Unfolding of `can_relay_set` at a valid index. -/
theorem can_relay_set_valid (s : State) (i : Nat) (b : Bool) (hi : i < 8) :
    can_relay_set s i b =
      (true,
       { s with
         relay_state_mask := set_result_mask s.relay_state_mask i b
         hw_set_calls := s.hw_set_calls ++ [(i, b)]
         log := s.log ++ [(.LOG_DEBUG, "relay_hw_set called (weak implementation)"),
                          (.LOG_DEBUG, "Relay set")] }) := by
  have hv : valid_index i = true := by simp [valid_index, MAX_RELAYS, hi]
  cases b <;>
    simp [can_relay_set, hv, hw_apply, relay_hw_set, log_message, set_result_mask]

/-- Unfolding of `can_relay_set` at an invalid index. -/
theorem can_relay_set_invalid (s : State) (i : Nat) (b : Bool) (hi : 8 ≤ i) :
    can_relay_set s i b = (false, log_message s .LOG_ERROR "Invalid relay index") := by
  have hv : valid_index i = false := by simp [valid_index, MAX_RELAYS]; omega
  simp [can_relay_set, hv]

/-- Unfolding of `can_relay_toggle` at a valid index. -/
theorem can_relay_toggle_valid (s : State) (i : Nat) (hi : i < 8) :
    can_relay_toggle s i = can_relay_set s i (!s.relay_state_mask.testBit i) := by
  have hv : valid_index i = true := by simp [valid_index, MAX_RELAYS, hi]
  unfold can_relay_toggle
  rw [shift_and_one_ne_zero]
  simp [hv]

/-- Unfolding of `can_relay_get` at a valid index. -/
theorem can_relay_get_valid (s : State) (i : Nat) (hi : i < 8) :
    can_relay_get s i = (s.relay_state_mask.testBit i, s) := by
  have hv : valid_index i = true := by simp [valid_index, MAX_RELAYS, hi]
  unfold can_relay_get
  rw [shift_and_one_ne_zero]
  simp [hv]

/-- Unfolding of `can_relay_toggle` at an invalid index. -/
theorem can_relay_toggle_invalid (s : State) (i : Nat) (hi : 8 ≤ i) :
    can_relay_toggle s i = (false, log_message s .LOG_ERROR "Invalid relay index") := by
  have hv : valid_index i = false := by simp [valid_index, MAX_RELAYS]; omega
  simp [can_relay_toggle, hv]

/-- Unfolding of `can_relay_get` at an invalid index. -/
theorem can_relay_get_invalid (s : State) (i : Nat) (hi : 8 ≤ i) :
    can_relay_get s i = (false, log_message s .LOG_ERROR "Invalid relay index") := by
  have hv : valid_index i = false := by simp [valid_index, MAX_RELAYS]; omega
  simp [can_relay_get, hv]

/-- The drive loop of `can_relay_set_mask` over a list of indices: one `relay_hw_set`
call per index, in list order, and no change to the module variables. -/
theorem drive_loop_effect (f : Nat → Bool) (l : List Nat) (s : State) :
    let t := l.foldl (fun s i => hw_apply s i (f i)) s
    t.hw_set_calls = s.hw_set_calls ++ l.map (fun i => (i, f i)) ∧
    t.relay_state_mask = s.relay_state_mask ∧
    t.can_sock = s.can_sock ∧
    t.can_ifname = s.can_ifname ∧
    t.hw_init_calls = s.hw_init_calls ∧
    t.send_calls = s.send_calls ∧
    t.written = s.written ∧
    t.closed = s.closed := by
  induction l generalizing s with
  | nil => simp
  | cons a l ih =>
    have h := ih (hw_apply s a (f a))
    simp only [List.foldl_cons, List.map_cons]
    simp only [hw_apply, relay_hw_set, log_message] at h ⊢
    refine ⟨?_, h.2⟩
    rw [h.1]
    simp

/-- The low byte of a value has the same bits 0..7 as the value. -/
theorem testBit_and_255 (m i : Nat) (hi : i < 8) : (m &&& 255).testBit i = m.testBit i := by
  have h : (255 : Nat) = 2 ^ 8 - 1 := by norm_num
  rw [Nat.testBit_and, h, Nat.testBit_two_pow_sub_one]
  simp [hi]

/-- Effect of `send_status_single` for a valid index: one `can_hw_send` request with
identifier `0x401` and the three bytes `[0x11, idx, bit]`; the frame is handed to
`write` exactly when the socket is open; the relay mask and the hardware trace are
untouched. -/
theorem send_status_single_effect (s : State) (idx : Nat) (write_ret : Int) :
    (send_status_single s idx write_ret).relay_state_mask = s.relay_state_mask ∧
    (send_status_single s idx write_ret).hw_set_calls = s.hw_set_calls ∧
    (send_status_single s idx write_ret).can_sock = s.can_sock ∧
    (send_status_single s idx write_ret).send_calls
      = s.send_calls ++
          [⟨0x401, some [0x11, idx, if s.relay_state_mask.testBit idx then 1 else 0], 3⟩] ∧
    (0 ≤ s.can_sock →
      (send_status_single s idx write_ret).written
        = s.written ++
            [⟨0x401, 3,
              [0x11, idx, if s.relay_state_mask.testBit idx then 1 else 0, 0, 0, 0, 0, 0]⟩]) ∧
    (s.can_sock < 0 → (send_status_single s idx write_ret).written = s.written) := by
  have hb : ((s.relay_state_mask >>> idx) &&& 1) % 2 ^ 8
      = if s.relay_state_mask.testBit idx then 1 else 0 := by
    rw [shift_and_one_val]
    split <;> rfl
  unfold send_status_single
  rw [hb]
  by_cases hs : s.can_sock < 0
  · have hs2 : ¬ 0 ≤ s.can_sock := by omega
    simp [can_hw_send, log_message, hs, hs2, CAN_STATUS_ID, STATUS_SINGLE]
  · have hs2 : 0 ≤ s.can_sock := by omega
    by_cases hw : write_ret = SIZEOF_CAN_FRAME <;>
      simp [can_hw_send, log_message, hs, hs2, hw, CAN_STATUS_ID, STATUS_SINGLE, build_frame,
        zero_frame, memcpy, CAN_SFF_MASK] <;> decide

/-- Effect of `send_status_all`: one `can_hw_send` request with identifier `0x401` and
the three bytes `[0x10, low byte, high byte]` of the current mask; the frame is handed
to `write` exactly when the socket is open; the relay mask and the hardware trace are
untouched. -/
theorem send_status_all_effect (s : State) (write_ret : Int) :
    (send_status_all s write_ret).relay_state_mask = s.relay_state_mask ∧
    (send_status_all s write_ret).hw_set_calls = s.hw_set_calls ∧
    (send_status_all s write_ret).can_sock = s.can_sock ∧
    (send_status_all s write_ret).send_calls
      = s.send_calls ++
          [⟨0x401, some [0x10, s.relay_state_mask &&& 0xFF,
              (s.relay_state_mask >>> 8) &&& 0xFF], 3⟩] ∧
    (0 ≤ s.can_sock →
      (send_status_all s write_ret).written
        = s.written ++
            [⟨0x401, 3,
              [0x10, s.relay_state_mask &&& 0xFF, (s.relay_state_mask >>> 8) &&& 0xFF,
                0, 0, 0, 0, 0]⟩]) ∧
    (s.can_sock < 0 → (send_status_all s write_ret).written = s.written) := by
  have h1 : (s.relay_state_mask &&& 0xFF) % 2 ^ 8 = s.relay_state_mask &&& 0xFF :=
    Nat.mod_eq_of_lt (lt_of_le_of_lt Nat.and_le_right (by norm_num))
  have h2 : ((s.relay_state_mask >>> 8) &&& 0xFF) % 2 ^ 8
      = (s.relay_state_mask >>> 8) &&& 0xFF :=
    Nat.mod_eq_of_lt (lt_of_le_of_lt Nat.and_le_right (by norm_num))
  unfold send_status_all
  rw [h1, h2]
  by_cases hs : s.can_sock < 0
  · have hs2 : ¬ 0 ≤ s.can_sock := by omega
    simp [can_hw_send, log_message, hs, hs2, CAN_STATUS_ID, STATUS_ALL]
  · have hs2 : 0 ≤ s.can_sock := by omega
    by_cases hw : write_ret = SIZEOF_CAN_FRAME <;>
      simp [can_hw_send, log_message, hs, hs2, hw, CAN_STATUS_ID, STATUS_ALL, build_frame,
        zero_frame, memcpy, CAN_SFF_MASK] <;> decide

/-- Dispatch of a SET command with a valid index. -/
theorem handle_set_valid (s : State) (idx v : Nat) (rest : List Nat) (len : Nat)
    (write_ret : Int) (hi : idx < 8) (hlen : 3 ≤ len) :
    can_relay_handle_can_msg s 0x400 (some (0x01 :: idx :: v :: rest)) len write_ret
      = (true, send_status_single (can_relay_set s idx (v != 0)).2 idx write_ret) := by
  have hv : valid_index idx = true := by simp [valid_index, MAX_RELAYS, hi]
  have h0 : ¬ len = 0 := by omega
  have h3 : ¬ len < 3 := by omega
  simp [can_relay_handle_can_msg, CAN_CMD_ID, OPCODE_SET, hv, h0, h3]

/-- Dispatch of a TOGGLE command with a valid index. -/
theorem handle_toggle_valid (s : State) (idx : Nat) (rest : List Nat) (len : Nat)
    (write_ret : Int) (hi : idx < 8) (hlen : 2 ≤ len) :
    can_relay_handle_can_msg s 0x400 (some (0x02 :: idx :: rest)) len write_ret
      = (true, send_status_single (can_relay_toggle s idx).2 idx write_ret) := by
  have hv : valid_index idx = true := by simp [valid_index, MAX_RELAYS, hi]
  have h0 : ¬ len = 0 := by omega
  have h2 : ¬ len < 2 := by omega
  simp [can_relay_handle_can_msg, CAN_CMD_ID, OPCODE_SET, OPCODE_TOGGLE, hv, h0, h2]

/-- Dispatch of a QUERY_ALL command. -/
theorem handle_query_all (s : State) (rest : List Nat) (len : Nat) (write_ret : Int)
    (hlen : 1 ≤ len) :
    can_relay_handle_can_msg s 0x400 (some (0x04 :: rest)) len write_ret
      = (true, send_status_all s write_ret) := by
  have h0 : ¬ len = 0 := by omega
  simp [can_relay_handle_can_msg, CAN_CMD_ID, OPCODE_SET, OPCODE_TOGGLE, OPCODE_QUERY,
    OPCODE_QUERY_ALL, h0]

/-- Effect of `can_relay_set` at a valid index on a 16-bit mask: result, hardware
trace, bits of the new mask and what `can_relay_get` reads back. -/
theorem set_valid_effect (s : State) (i : Nat) (b : Bool)
    (hm : s.relay_state_mask < 2 ^ 16) (hi : i < 8) :
    (can_relay_set s i b).1 = true ∧
    (can_relay_set s i b).2.hw_set_calls = s.hw_set_calls ++ [(i, b)] ∧
    (can_relay_set s i b).2.relay_state_mask.testBit i = b ∧
    (∀ j, j ≠ i →
      (can_relay_set s i b).2.relay_state_mask.testBit j = s.relay_state_mask.testBit j) ∧
    (can_relay_set s i b).2.relay_state_mask < 2 ^ 16 ∧
    (can_relay_get (can_relay_set s i b).2 i).1 = b := by
  rw [can_relay_set_valid s i b hi, can_relay_get_valid _ i hi]
  refine ⟨rfl, rfl, ?_, ?_, set_result_mask_lt _ _ _, ?_⟩
  · simp [set_result_mask_testBit _ i i b hm hi]
  · intro j hj
    simp [set_result_mask_testBit _ i j b hm hi, hj]
  · simp [set_result_mask_testBit _ i i b hm hi]

/-! ## Relay state model -/

/-- Claim C1: for every 16-bit relay mask, every valid index `i < 8` and every `b`,
`can_relay_set (i, b)` returns true, makes exactly one hardware drive call
`relay_hw_set (i, b)`, leaves a mask whose bit `i` is `b` and whose other bits are
unchanged, and a following `can_relay_get (i)` returns `b`. -/
theorem can_relay_set_valid_index (s : State) (i : Nat) (b : Bool)
    (hm : s.relay_state_mask < 2 ^ 16) (hi : i < 8) :
    (can_relay_set s i b).1 = true ∧
    (can_relay_set s i b).2.hw_set_calls = s.hw_set_calls ++ [(i, b)] ∧
    (can_relay_set s i b).2.relay_state_mask.testBit i = b ∧
    (∀ j, j ≠ i →
      (can_relay_set s i b).2.relay_state_mask.testBit j = s.relay_state_mask.testBit j) ∧
    (can_relay_set s i b).2.relay_state_mask < 2 ^ 16 ∧
    (can_relay_get (can_relay_set s i b).2 i).1 = b :=
  set_valid_effect s i b hm hi

/-- Witness for C1: relay 3 of the mask `0x05` is switched on. -/
theorem can_relay_set_valid_index_witness :
    (can_relay_set { State.start with relay_state_mask := 0x05 } 3 true).1 = true ∧
    (can_relay_set { State.start with relay_state_mask := 0x05 } 3 true).2.hw_set_calls
      = [(3, true)] ∧
    (can_relay_get (can_relay_set { State.start with relay_state_mask := 0x05 } 3 true).2 3).1
      = true :=
  have h := can_relay_set_valid_index { State.start with relay_state_mask := 0x05 } 3 true
    (by decide) (by decide)
  ⟨h.1, h.2.1, h.2.2.2.2.2⟩

/-- Claim C2: for every relay mask and every index `8 <= i <= 255`, `can_relay_set`
(for either value of `b`), `can_relay_toggle` and `can_relay_get` each return false,
leave the relay mask as it was and make no hardware drive call. -/
theorem invalid_index_rejected (s : State) (i : Nat) (b : Bool) (hlo : 8 ≤ i) (_hhi : i ≤ 255) :
    ((can_relay_set s i b).1 = false ∧
      (can_relay_set s i b).2.relay_state_mask = s.relay_state_mask ∧
      (can_relay_set s i b).2.hw_set_calls = s.hw_set_calls) ∧
    ((can_relay_toggle s i).1 = false ∧
      (can_relay_toggle s i).2.relay_state_mask = s.relay_state_mask ∧
      (can_relay_toggle s i).2.hw_set_calls = s.hw_set_calls) ∧
    ((can_relay_get s i).1 = false ∧
      (can_relay_get s i).2.relay_state_mask = s.relay_state_mask ∧
      (can_relay_get s i).2.hw_set_calls = s.hw_set_calls) := by
  rw [can_relay_set_invalid s i b hlo, can_relay_toggle_invalid s i hlo,
    can_relay_get_invalid s i hlo]
  simp [log_message]

/-- Witness for C2: index 9 on the mask `0xFF`. -/
theorem invalid_index_rejected_witness :
    (can_relay_set { State.start with relay_state_mask := 0xFF } 9 false).1 = false ∧
    (can_relay_set { State.start with relay_state_mask := 0xFF } 9 false).2.relay_state_mask
      = 0xFF ∧
    (can_relay_toggle { State.start with relay_state_mask := 0xFF } 9).2.relay_state_mask
      = 0xFF ∧
    (can_relay_get { State.start with relay_state_mask := 0xFF } 9).1 = false :=
  have h := invalid_index_rejected { State.start with relay_state_mask := 0xFF } 9 false
    (by decide) (by decide)
  ⟨h.1.1, h.1.2.1, h.2.1.2.1, h.2.2.1⟩

/-- Claim C3: for every prior state and every 16-bit argument `m`,
`can_relay_set_mask (m)` returns true, makes exactly the eight hardware drive calls
`relay_hw_set (i, bit i of m)` for `i = 0..7` in increasing order, and leaves the mask
equal to `m & 0xFF`, so `can_relay_get (i)` afterwards returns bit `i` of `m` for every
`i < 8`, whatever the prior mask was. -/
theorem can_relay_set_mask_effect (s : State) (m : Nat) (_hm : m < 2 ^ 16) :
    (can_relay_set_mask s m).1 = true ∧
    (can_relay_set_mask s m).2.hw_set_calls
      = s.hw_set_calls ++ (List.range 8).map (fun i => (i, m.testBit i)) ∧
    (can_relay_set_mask s m).2.relay_state_mask = m &&& 0xFF ∧
    (∀ i, i < 8 → (can_relay_get (can_relay_set_mask s m).2 i).1 = m.testBit i) := by
  have hloop := drive_loop_effect (fun i => ((m >>> i) &&& 1) != 0) (List.range 8) s
  have hmask : (m &&& ((1 <<< 8) - 1)) % 2 ^ 16 = m &&& 255 := by
    have h255 : (1 <<< 8) - 1 = 255 := by decide
    rw [h255]
    exact Nat.mod_eq_of_lt (lt_of_le_of_lt Nat.and_le_right (by norm_num))
  have hcalls : (can_relay_set_mask s m).2.hw_set_calls
      = s.hw_set_calls ++ (List.range 8).map (fun i => (i, m.testBit i)) := by
    simp only [can_relay_set_mask, log_message, MAX_RELAYS]
    rw [hloop.1]
    congr 1
    apply List.map_congr_left
    intro i _
    rw [shift_and_one_ne_zero]
  have hm2 : (can_relay_set_mask s m).2.relay_state_mask = m &&& 255 := by
    simp only [can_relay_set_mask, log_message, MAX_RELAYS]
    exact hmask
  refine ⟨rfl, hcalls, hm2, ?_⟩
  intro i hi
  rw [can_relay_get_valid _ i hi]
  simp only
  rw [hm2]
  exact testBit_and_255 m i hi

/-- Witness for C3: the argument `0xA5C3` on the prior mask `0xFF` leaves the mask
`0xC3` after driving relays 0..7 with the bits of `0xC3`. -/
theorem can_relay_set_mask_effect_witness :
    (can_relay_set_mask { State.start with relay_state_mask := 0xFF } 0xA5C3).2.relay_state_mask
      = 0xC3 ∧
    (can_relay_set_mask { State.start with relay_state_mask := 0xFF } 0xA5C3).2.hw_set_calls
      = [(0, true), (1, true), (2, false), (3, false), (4, false), (5, false), (6, true),
          (7, true)] :=
  have h := can_relay_set_mask_effect { State.start with relay_state_mask := 0xFF } 0xA5C3
    (by decide)
  ⟨h.2.2.1.trans (by decide), h.2.1.trans (by decide)⟩

/-- Claim C4: for every 16-bit relay mask and every valid index `i < 8`, two
consecutive calls of `can_relay_toggle (i)` both return true and leave the relay mask
equal to its value before the first call; after the first call bit `i` is the
complement of its prior value. -/
theorem can_relay_toggle_involution (s : State) (i : Nat)
    (hm : s.relay_state_mask < 2 ^ 16) (hi : i < 8) :
    (can_relay_toggle s i).1 = true ∧
    (can_relay_toggle (can_relay_toggle s i).2 i).1 = true ∧
    (can_relay_toggle (can_relay_toggle s i).2 i).2.relay_state_mask = s.relay_state_mask ∧
    (can_relay_toggle s i).2.relay_state_mask.testBit i = !s.relay_state_mask.testBit i := by
  rw [can_relay_toggle_valid s i hi, can_relay_set_valid s i _ hi,
    can_relay_toggle_valid _ i hi, can_relay_set_valid _ i _ hi]
  simp only
  have h1 := set_result_mask_lt s.relay_state_mask i (!s.relay_state_mask.testBit i)
  refine ⟨trivial, trivial, ?_, ?_⟩
  · apply Nat.eq_of_testBit_eq
    intro j
    rw [set_result_mask_testBit _ i j _ h1 hi, set_result_mask_testBit _ i j _ hm hi]
    by_cases hj : j = i
    · simp [hj, set_result_mask_testBit _ i i _ hm hi]
    · simp [hj]
  · simp [set_result_mask_testBit _ i i _ hm hi]

/-- Witness for C4: relay 2 of the mask `0x05` is toggled twice. -/
theorem can_relay_toggle_involution_witness :
    (can_relay_toggle { State.start with relay_state_mask := 0x05 } 2).1 = true ∧
    (can_relay_toggle
      (can_relay_toggle { State.start with relay_state_mask := 0x05 } 2).2 2).2.relay_state_mask
        = 0x05 :=
  have h := can_relay_toggle_involution { State.start with relay_state_mask := 0x05 } 2
    (by decide) (by decide)
  ⟨h.1, h.2.2.1⟩

/-! ## Command protocol engine -/

/-- Claim C5: for every 16-bit relay mask, every index `idx < 8`, every value byte `v`
and every payload beginning `[0x01, idx, v]` with `len >= 3`,
`can_relay_handle_can_msg (0x400, payload, len)` returns true, sets bit `idx` of the mask
to `v != 0` and leaves the other bits unchanged, and sends exactly one status frame: one
`can_hw_send` request to `0x401` with the 3-byte payload `[0x11, idx, b]`, `b` being 1
if `v != 0` and 0 otherwise, which is the frame handed to the socket when it is open. -/
theorem handle_set_command (s : State) (idx v : Nat) (rest : List Nat) (len : Nat)
    (write_ret : Int) (hm : s.relay_state_mask < 2 ^ 16) (hi : idx < 8) (hlen : 3 ≤ len) :
    let r := can_relay_handle_can_msg s 0x400 (some (0x01 :: idx :: v :: rest)) len write_ret
    r.1 = true ∧
    r.2.relay_state_mask.testBit idx = (v != 0) ∧
    (∀ j, j ≠ idx → r.2.relay_state_mask.testBit j = s.relay_state_mask.testBit j) ∧
    r.2.hw_set_calls = s.hw_set_calls ++ [(idx, v != 0)] ∧
    r.2.send_calls
      = s.send_calls ++ [⟨0x401, some [0x11, idx, if v ≠ 0 then 1 else 0], 3⟩] ∧
    (0 ≤ s.can_sock →
      r.2.written
        = s.written ++ [⟨0x401, 3, [0x11, idx, if v ≠ 0 then 1 else 0, 0, 0, 0, 0, 0]⟩]) := by
  intro r
  have hr : r = (true, send_status_single (can_relay_set s idx (v != 0)).2 idx write_ret) :=
    handle_set_valid s idx v rest len write_ret hi hlen
  have hset := set_valid_effect s idx (v != 0) hm hi
  have hsend := send_status_single_effect (can_relay_set s idx (v != 0)).2 idx write_ret
  have hsock : (can_relay_set s idx (v != 0)).2.can_sock = s.can_sock := by
    rw [can_relay_set_valid s idx _ hi]
  have hsc : (can_relay_set s idx (v != 0)).2.send_calls = s.send_calls := by
    rw [can_relay_set_valid s idx _ hi]
  have hwr : (can_relay_set s idx (v != 0)).2.written = s.written := by
    rw [can_relay_set_valid s idx _ hi]
  have hbit : (if (can_relay_set s idx (v != 0)).2.relay_state_mask.testBit idx = true
      then 1 else 0) = if v ≠ 0 then 1 else 0 := by
    rw [hset.2.2.1]
    by_cases hv : v = 0 <;> simp [hv]
  rw [hr]
  simp only
  refine ⟨trivial, ?_, ?_, ?_, ?_, ?_⟩
  · rw [hsend.1]; exact hset.2.2.1
  · intro j hj
    rw [hsend.1]; exact hset.2.2.2.1 j hj
  · rw [hsend.2.1]; exact hset.2.1
  · rw [hsend.2.2.2.1, hsc, hbit]
  · intro hopen
    rw [hsend.2.2.2.2.1 (by rw [hsock]; exact hopen), hwr, hbit]

/-- Witness for C5: the frame `[0x01, 3, 1]` with the socket open turns relay 3 on and
the reply is `[0x11, 3, 1]`. -/
theorem handle_set_command_witness :
    (can_relay_handle_can_msg { State.start with can_sock := 3 } 0x400
      (some [0x01, 3, 1]) 3 16).1 = true ∧
    (can_relay_handle_can_msg { State.start with can_sock := 3 } 0x400
      (some [0x01, 3, 1]) 3 16).2.relay_state_mask.testBit 3 = true ∧
    (can_relay_handle_can_msg { State.start with can_sock := 3 } 0x400
      (some [0x01, 3, 1]) 3 16).2.send_calls = [⟨0x401, some [0x11, 3, 1], 3⟩] ∧
    (can_relay_handle_can_msg { State.start with can_sock := 3 } 0x400
      (some [0x01, 3, 1]) 3 16).2.written = [⟨0x401, 3, [0x11, 3, 1, 0, 0, 0, 0, 0]⟩] :=
  have h := handle_set_command { State.start with can_sock := 3 } 3 1 [] 3 16
    (by decide) (by decide) (by decide)
  ⟨h.1, h.2.1, h.2.2.2.2.1, h.2.2.2.2.2 (by decide)⟩

/-- Claim C6: for every relay mask and every payload whose first byte is `0x04`
(`len >= 1`, any trailing bytes), `can_relay_handle_can_msg (0x400, payload, len)`
returns true and sends exactly one AllStatus reply: one `can_hw_send` request to `0x401`
with the 3-byte payload `[0x10, mask & 0xFF, (mask >> 8) & 0xFF]` of the current mask,
which is the frame handed to the socket when it is open; the mask is not changed and no
hardware drive call is made. -/
theorem handle_query_all_command (s : State) (rest : List Nat) (len : Nat) (write_ret : Int)
    (hlen : 1 ≤ len) :
    let r := can_relay_handle_can_msg s 0x400 (some (0x04 :: rest)) len write_ret
    r.1 = true ∧
    r.2.send_calls
      = s.send_calls ++
          [⟨0x401, some [0x10, s.relay_state_mask &&& 0xFF,
              (s.relay_state_mask >>> 8) &&& 0xFF], 3⟩] ∧
    (0 ≤ s.can_sock →
      r.2.written
        = s.written ++
            [⟨0x401, 3,
              [0x10, s.relay_state_mask &&& 0xFF, (s.relay_state_mask >>> 8) &&& 0xFF,
                0, 0, 0, 0, 0]⟩]) ∧
    r.2.relay_state_mask = s.relay_state_mask ∧
    r.2.hw_set_calls = s.hw_set_calls := by
  intro r
  have hr : r = (true, send_status_all s write_ret) :=
    handle_query_all s rest len write_ret hlen
  have hsend := send_status_all_effect s write_ret
  rw [hr]
  exact ⟨rfl, hsend.2.2.2.1, hsend.2.2.2.2.1, hsend.1, hsend.2.1⟩

/-- Witness for C6: the frame `[0x04]` on the mask `0x00A5` with the socket open is
answered by `[0x10, 0xA5, 0x00]`. -/
theorem handle_query_all_command_witness :
    (can_relay_handle_can_msg { State.start with relay_state_mask := 0xA5, can_sock := 3 }
      0x400 (some [0x04]) 1 16).2.send_calls = [⟨0x401, some [0x10, 0xA5, 0x00], 3⟩] ∧
    (can_relay_handle_can_msg { State.start with relay_state_mask := 0xA5, can_sock := 3 }
      0x400 (some [0x04]) 1 16).2.written = [⟨0x401, 3, [0x10, 0xA5, 0, 0, 0, 0, 0, 0]⟩] ∧
    (can_relay_handle_can_msg { State.start with relay_state_mask := 0xA5, can_sock := 3 }
      0x400 (some [0x04]) 1 16).2.relay_state_mask = 0xA5 :=
  have h := handle_query_all_command
    { State.start with relay_state_mask := 0xA5, can_sock := 3 } [] 1 16 (by decide)
  ⟨h.2.1.trans (by decide), (h.2.2.1 (by decide)).trans (by decide), h.2.2.2.1⟩

/-- Claim C7: for every relay mask and every command frame to `0x400` with opcode SET
(`len >= 3`), TOGGLE (`len >= 2`) or QUERY (`len >= 2`) whose index byte is `>= 8`,
`can_relay_handle_can_msg` returns true, sends no reply frame, leaves the relay mask
unchanged and makes no hardware drive call. -/
theorem handle_invalid_index (s : State) (op idx : Nat) (rest : List Nat) (len : Nat)
    (write_ret : Int) (hidx : 8 ≤ idx) (_hbyte : idx ≤ 255)
    (hop : (op = 0x01 ∧ 3 ≤ len) ∨ (op = 0x02 ∧ 2 ≤ len) ∨ (op = 0x03 ∧ 2 ≤ len)) :
    let r := can_relay_handle_can_msg s 0x400 (some (op :: idx :: rest)) len write_ret
    r.1 = true ∧
    r.2.send_calls = s.send_calls ∧
    r.2.written = s.written ∧
    r.2.relay_state_mask = s.relay_state_mask ∧
    r.2.hw_set_calls = s.hw_set_calls := by
  intro r
  have hv : valid_index idx = false := by simp [valid_index, MAX_RELAYS]; omega
  rcases hop with ⟨h, hl⟩ | ⟨h, hl⟩ | ⟨h, hl⟩
  · have h0 : ¬ len = 0 := by omega
    have h3 : ¬ len < 3 := by omega
    simp [r, h, can_relay_handle_can_msg, CAN_CMD_ID, OPCODE_SET, hv, h0, h3, log_message]
  · have h0 : ¬ len = 0 := by omega
    have h3 : ¬ len < 2 := by omega
    simp [r, h, can_relay_handle_can_msg, CAN_CMD_ID, OPCODE_SET, OPCODE_TOGGLE, hv, h0, h3,
      log_message]
  · have h0 : ¬ len = 0 := by omega
    have h3 : ¬ len < 2 := by omega
    simp [r, h, can_relay_handle_can_msg, CAN_CMD_ID, OPCODE_SET, OPCODE_TOGGLE, OPCODE_QUERY,
      hv, h0, h3, log_message]

/-- Witness for C7: the frame `[0x01, 9, 1]` on the mask `0x05` with the socket open
produces no reply and no mask change. -/
theorem handle_invalid_index_witness :
    (can_relay_handle_can_msg { State.start with relay_state_mask := 0x05, can_sock := 3 }
      0x400 (some [0x01, 9, 1]) 3 16).1 = true ∧
    (can_relay_handle_can_msg { State.start with relay_state_mask := 0x05, can_sock := 3 }
      0x400 (some [0x01, 9, 1]) 3 16).2.send_calls = [] ∧
    (can_relay_handle_can_msg { State.start with relay_state_mask := 0x05, can_sock := 3 }
      0x400 (some [0x01, 9, 1]) 3 16).2.written = [] ∧
    (can_relay_handle_can_msg { State.start with relay_state_mask := 0x05, can_sock := 3 }
      0x400 (some [0x01, 9, 1]) 3 16).2.relay_state_mask = 0x05 :=
  have h := handle_invalid_index
    { State.start with relay_state_mask := 0x05, can_sock := 3 } 0x01 9 [1] 3 16
    (by decide) (by decide) (Or.inl ⟨rfl, by decide⟩)
  ⟨h.1, h.2.1, h.2.2.1, h.2.2.2.1⟩

/-- Claim C8: for every relay mask, a frame to `0x400` that is too short for its opcode
(`len = 0` with any data pointer, or opcode SET with `len` 1 or 2, or opcode TOGGLE or
QUERY with `len` 1) is claimed (`can_relay_handle_can_msg` returns true) but produces no
reply frame, no change of the relay mask and no hardware drive call. -/
theorem handle_short_frame (s : State) (data : Option (List Nat)) (len : Nat)
    (write_ret : Int)
    (hshort : len = 0 ∨
      (∃ rest, data = some (0x01 :: rest) ∧ (len = 1 ∨ len = 2)) ∨
      (∃ rest, data = some (0x02 :: rest) ∧ len = 1) ∨
      (∃ rest, data = some (0x03 :: rest) ∧ len = 1)) :
    let r := can_relay_handle_can_msg s 0x400 data len write_ret
    r.1 = true ∧
    r.2.send_calls = s.send_calls ∧
    r.2.written = s.written ∧
    r.2.relay_state_mask = s.relay_state_mask ∧
    r.2.hw_set_calls = s.hw_set_calls := by
  intro r
  rcases hshort with h | ⟨rest, hd, h⟩ | ⟨rest, hd, h⟩ | ⟨rest, hd, h⟩
  · cases data <;> simp [r, h, can_relay_handle_can_msg, CAN_CMD_ID, log_message]
  · rcases h with h | h <;>
      simp [r, h, hd, can_relay_handle_can_msg, CAN_CMD_ID, OPCODE_SET, log_message]
  · simp [r, h, hd, can_relay_handle_can_msg, CAN_CMD_ID, OPCODE_SET, OPCODE_TOGGLE,
      log_message]
  · simp [r, h, hd, can_relay_handle_can_msg, CAN_CMD_ID, OPCODE_SET, OPCODE_TOGGLE,
      OPCODE_QUERY, log_message]

/-- Witness for C8: an empty payload on the mask `0x05` with the socket open. -/
theorem handle_short_frame_witness :
    (can_relay_handle_can_msg { State.start with relay_state_mask := 0x05, can_sock := 3 }
      0x400 (some []) 0 16).1 = true ∧
    (can_relay_handle_can_msg { State.start with relay_state_mask := 0x05, can_sock := 3 }
      0x400 (some []) 0 16).2.send_calls = [] ∧
    (can_relay_handle_can_msg { State.start with relay_state_mask := 0x05, can_sock := 3 }
      0x400 (some []) 0 16).2.relay_state_mask = 0x05 :=
  have h := handle_short_frame
    { State.start with relay_state_mask := 0x05, can_sock := 3 } (some []) 0 16 (Or.inl rfl)
  ⟨h.1, h.2.1, h.2.2.2.1⟩

/-- Claim C9: for every arbitration id, payload and state, `can_relay_handle_can_msg`
returns true if and only if the id equals `0x400`, the comparison being made on the id
as given (no masking); when the id differs it returns false and leaves the whole state
as it was: no reply, no change of the relay mask, no hardware drive call. -/
theorem handle_claims_iff_cmd_id (s : State) (can_id : Nat) (data : Option (List Nat))
    (len : Nat) (write_ret : Int) :
    let r := can_relay_handle_can_msg s can_id data len write_ret
    (r.1 = true ↔ can_id = 0x400) ∧
    (can_id ≠ 0x400 → r.1 = false ∧ r.2 = s) := by
  intro r
  by_cases hid : can_id = 0x400
  · refine ⟨⟨fun _ => hid, fun _ => ?_⟩, fun h => absurd hid h⟩
    simp only [r, hid, can_relay_handle_can_msg, CAN_CMD_ID]
    cases data with
    | none => simp
    | some d =>
      simp only [bne_self_eq_false, Bool.false_eq_true, if_false]
      split_ifs <;> rfl
  · have hne : (can_id != CAN_CMD_ID) = true := by simp [CAN_CMD_ID, hid]
    have hr : r = (false, s) := by simp [r, can_relay_handle_can_msg, hne]
    rw [hr]
    simp [hid]

/-- Witness for C9: the id `0xC00` equals `0x400` in its low 11 bits, yet the frame is
not claimed and the state is untouched. -/
theorem handle_claims_iff_cmd_id_witness :
    (can_relay_handle_can_msg { State.start with can_sock := 3 } 0xC00
      (some [0x01, 3, 1]) 3 16).1 = false ∧
    (can_relay_handle_can_msg { State.start with can_sock := 3 } 0xC00
      (some [0x01, 3, 1]) 3 16).2 = { State.start with can_sock := 3 } :=
  (handle_claims_iff_cmd_id { State.start with can_sock := 3 } 0xC00
    (some [0x01, 3, 1]) 3 16).2 (by decide)

/-- Claim C10: for every 16-bit relay mask, every index `idx < 8` and every payload
beginning `[0x02, idx]` with `len >= 2`, `can_relay_handle_can_msg (0x400, payload, len)`
returns true, complements bit `idx` of the mask and leaves the other bits unchanged,
makes one hardware drive call for `idx` with the new state, and sends exactly one status
frame: one `can_hw_send` request to `0x401` with the 3-byte payload `[0x11, idx, b]`,
`b` being the value of bit `idx` after the toggle, which is the frame handed to the
socket when it is open. -/
theorem handle_toggle_command (s : State) (idx : Nat) (rest : List Nat) (len : Nat)
    (write_ret : Int) (hm : s.relay_state_mask < 2 ^ 16) (hi : idx < 8) (hlen : 2 ≤ len) :
    let r := can_relay_handle_can_msg s 0x400 (some (0x02 :: idx :: rest)) len write_ret
    r.1 = true ∧
    r.2.relay_state_mask.testBit idx = !s.relay_state_mask.testBit idx ∧
    (∀ j, j ≠ idx → r.2.relay_state_mask.testBit j = s.relay_state_mask.testBit j) ∧
    r.2.hw_set_calls = s.hw_set_calls ++ [(idx, r.2.relay_state_mask.testBit idx)] ∧
    r.2.send_calls
      = s.send_calls ++
          [⟨0x401, some [0x11, idx, if r.2.relay_state_mask.testBit idx then 1 else 0], 3⟩] ∧
    (0 ≤ s.can_sock →
      r.2.written
        = s.written ++
            [⟨0x401, 3,
              [0x11, idx, if r.2.relay_state_mask.testBit idx then 1 else 0,
                0, 0, 0, 0, 0]⟩]) := by
  intro r
  have hr : r = (true, send_status_single (can_relay_toggle s idx).2 idx write_ret) :=
    handle_toggle_valid s idx rest len write_ret hi hlen
  have htog : can_relay_toggle s idx = can_relay_set s idx (!s.relay_state_mask.testBit idx) :=
    can_relay_toggle_valid s idx hi
  have hset := set_valid_effect s idx (!s.relay_state_mask.testBit idx) hm hi
  have hsend := send_status_single_effect (can_relay_toggle s idx).2 idx write_ret
  rw [htog] at hsend hr
  have hsock : (can_relay_set s idx (!s.relay_state_mask.testBit idx)).2.can_sock
      = s.can_sock := by
    rw [can_relay_set_valid s idx _ hi]
  have hsc : (can_relay_set s idx (!s.relay_state_mask.testBit idx)).2.send_calls
      = s.send_calls := by
    rw [can_relay_set_valid s idx _ hi]
  have hwr : (can_relay_set s idx (!s.relay_state_mask.testBit idx)).2.written
      = s.written := by
    rw [can_relay_set_valid s idx _ hi]
  rw [hr]
  simp only
  rw [hsend.1]
  refine ⟨trivial, hset.2.2.1, hset.2.2.2.1, ?_, ?_, ?_⟩
  · rw [hsend.2.1, hset.2.1, hset.2.2.1]
  · rw [hsend.2.2.2.1, hsc]
  · intro hopen
    rw [hsend.2.2.2.2.1 (by rw [hsock]; exact hopen), hwr]

/-- Witness for C10: the frame `[0x02, 2]` on the mask `0x05` with the socket open
switches relay 2 off and the reply is `[0x11, 2, 0]`. -/
theorem handle_toggle_command_witness :
    (can_relay_handle_can_msg { State.start with relay_state_mask := 0x05, can_sock := 3 }
      0x400 (some [0x02, 2]) 2 16).1 = true ∧
    (can_relay_handle_can_msg { State.start with relay_state_mask := 0x05, can_sock := 3 }
      0x400 (some [0x02, 2]) 2 16).2.relay_state_mask.testBit 2 = false ∧
    (can_relay_handle_can_msg { State.start with relay_state_mask := 0x05, can_sock := 3 }
      0x400 (some [0x02, 2]) 2 16).2.hw_set_calls = [(2, false)] ∧
    (can_relay_handle_can_msg { State.start with relay_state_mask := 0x05, can_sock := 3 }
      0x400 (some [0x02, 2]) 2 16).2.send_calls = [⟨0x401, some [0x11, 2, 0], 3⟩] :=
  have h := handle_toggle_command
    { State.start with relay_state_mask := 0x05, can_sock := 3 } 2 [] 2 16
    (by decide) (by decide) (by decide)
  have hb := h.2.1.trans (show (!(0x05).testBit 2) = false by decide)
  ⟨h.1, hb, h.2.2.2.1.trans (by rw [hb]; rfl), h.2.2.2.2.1.trans (by rw [hb]; rfl)⟩

/-- Dispatch of a QUERY command with a valid index. -/
theorem handle_query_valid (s : State) (idx : Nat) (rest : List Nat) (len : Nat)
    (write_ret : Int) (hi : idx < 8) (hlen : 2 ≤ len) :
    can_relay_handle_can_msg s 0x400 (some (0x03 :: idx :: rest)) len write_ret
      = (true, send_status_single s idx write_ret) := by
  have hv : valid_index idx = true := by simp [valid_index, MAX_RELAYS, hi]
  have h0 : ¬ len = 0 := by omega
  have h2 : ¬ len < 2 := by omega
  simp [can_relay_handle_can_msg, CAN_CMD_ID, OPCODE_SET, OPCODE_TOGGLE, OPCODE_QUERY, hv,
    h0, h2]

/-- Claim C11: for every relay mask, every index `idx < 8` and every payload beginning
`[0x03, idx]` with `len >= 2`, `can_relay_handle_can_msg (0x400, payload, len)` returns
true and sends exactly one status frame: one `can_hw_send` request to `0x401` with the
3-byte payload `[0x11, idx, b]`, `b` being the current value of bit `idx`, which is the
frame handed to the socket when it is open; the relay mask is not changed and no
hardware drive call is made. -/
theorem handle_query_command (s : State) (idx : Nat) (rest : List Nat) (len : Nat)
    (write_ret : Int) (hi : idx < 8) (hlen : 2 ≤ len) :
    let r := can_relay_handle_can_msg s 0x400 (some (0x03 :: idx :: rest)) len write_ret
    r.1 = true ∧
    r.2.send_calls
      = s.send_calls ++
          [⟨0x401, some [0x11, idx, if s.relay_state_mask.testBit idx then 1 else 0], 3⟩] ∧
    (0 ≤ s.can_sock →
      r.2.written
        = s.written ++
            [⟨0x401, 3,
              [0x11, idx, if s.relay_state_mask.testBit idx then 1 else 0, 0, 0, 0, 0, 0]⟩]) ∧
    r.2.relay_state_mask = s.relay_state_mask ∧
    r.2.hw_set_calls = s.hw_set_calls := by
  intro r
  have hr : r = (true, send_status_single s idx write_ret) :=
    handle_query_valid s idx rest len write_ret hi hlen
  have hsend := send_status_single_effect s idx write_ret
  rw [hr]
  exact ⟨rfl, hsend.2.2.2.1, hsend.2.2.2.2.1, hsend.1, hsend.2.1⟩

/-- Witness for C11: the frame `[0x03, 2]` on the mask `0x05` with the socket open is
answered by `[0x11, 2, 1]` and changes nothing. -/
theorem handle_query_command_witness :
    (can_relay_handle_can_msg { State.start with relay_state_mask := 0x05, can_sock := 3 }
      0x400 (some [0x03, 2]) 2 16).1 = true ∧
    (can_relay_handle_can_msg { State.start with relay_state_mask := 0x05, can_sock := 3 }
      0x400 (some [0x03, 2]) 2 16).2.send_calls = [⟨0x401, some [0x11, 2, 1], 3⟩] ∧
    (can_relay_handle_can_msg { State.start with relay_state_mask := 0x05, can_sock := 3 }
      0x400 (some [0x03, 2]) 2 16).2.written = [⟨0x401, 3, [0x11, 2, 1, 0, 0, 0, 0, 0]⟩] ∧
    (can_relay_handle_can_msg { State.start with relay_state_mask := 0x05, can_sock := 3 }
      0x400 (some [0x03, 2]) 2 16).2.relay_state_mask = 0x05 ∧
    (can_relay_handle_can_msg { State.start with relay_state_mask := 0x05, can_sock := 3 }
      0x400 (some [0x03, 2]) 2 16).2.hw_set_calls = [] :=
  have h := handle_query_command
    { State.start with relay_state_mask := 0x05, can_sock := 3 } 2 [] 2 16
    (by decide) (by decide)
  ⟨h.1, h.2.1.trans (by decide), (h.2.2.1 (by decide)).trans (by decide), h.2.2.2.1,
    h.2.2.2.2⟩

/-- Claim C12: for every relay mask and every non-empty payload to `0x400` whose first
byte is none of `0x01`, `0x02`, `0x03`, `0x04`, `can_relay_handle_can_msg` ignores the
frame: it returns true, sends no reply, leaves the relay mask unchanged and makes no
hardware drive call. -/
theorem handle_unknown_opcode (s : State) (op : Nat) (rest : List Nat) (len : Nat)
    (write_ret : Int) (hlen : 1 ≤ len)
    (h1 : op ≠ 0x01) (h2 : op ≠ 0x02) (h3 : op ≠ 0x03) (h4 : op ≠ 0x04) :
    let r := can_relay_handle_can_msg s 0x400 (some (op :: rest)) len write_ret
    r.1 = true ∧
    r.2.send_calls = s.send_calls ∧
    r.2.written = s.written ∧
    r.2.relay_state_mask = s.relay_state_mask ∧
    r.2.hw_set_calls = s.hw_set_calls := by
  intro r
  have h0 : ¬ len = 0 := by omega
  simp [r, can_relay_handle_can_msg, CAN_CMD_ID, OPCODE_SET, OPCODE_TOGGLE, OPCODE_QUERY,
    OPCODE_QUERY_ALL, h0, h1, h2, h3, h4, log_message]

/-- Witness for C12: the frame `[0x05, 3, 1]` on the mask `0x05` with the socket open. -/
theorem handle_unknown_opcode_witness :
    (can_relay_handle_can_msg { State.start with relay_state_mask := 0x05, can_sock := 3 }
      0x400 (some [0x05, 3, 1]) 3 16).1 = true ∧
    (can_relay_handle_can_msg { State.start with relay_state_mask := 0x05, can_sock := 3 }
      0x400 (some [0x05, 3, 1]) 3 16).2.send_calls = [] ∧
    (can_relay_handle_can_msg { State.start with relay_state_mask := 0x05, can_sock := 3 }
      0x400 (some [0x05, 3, 1]) 3 16).2.written = [] ∧
    (can_relay_handle_can_msg { State.start with relay_state_mask := 0x05, can_sock := 3 }
      0x400 (some [0x05, 3, 1]) 3 16).2.relay_state_mask = 0x05 ∧
    (can_relay_handle_can_msg { State.start with relay_state_mask := 0x05, can_sock := 3 }
      0x400 (some [0x05, 3, 1]) 3 16).2.hw_set_calls = [] :=
  handle_unknown_opcode
    { State.start with relay_state_mask := 0x05, can_sock := 3 } 0x05 [3, 1] 3 16
    (by decide) (by decide) (by decide) (by decide) (by decide)

/-! ## Agreement of the relay mask and the hardware drive state -/

/-- Drive state after one more `relay_hw_set (i, b)` call. -/
theorem hw_drive_state_append (calls : List (Nat × Bool)) (i j : Nat) (b : Bool) :
    hw_drive_state (calls ++ [(i, b)]) j = if i = j then b else hw_drive_state calls j := by
  simp [hw_drive_state, List.foldl_append]

/-- Drive state after the relays `0 .. n-1` were driven in order with `f`. -/
theorem hw_drive_state_range (calls : List (Nat × Bool)) (f : Nat → Bool) (n j : Nat)
    (hj : j < n) :
    hw_drive_state (calls ++ (List.range n).map (fun i => (i, f i))) j = f j := by
  induction n with
  | zero => omega
  | succ n ih =>
    rw [List.range_succ, List.map_append, ← List.append_assoc]
    simp only [List.map_cons, List.map_nil]
    rw [hw_drive_state_append]
    by_cases h : n = j
    · simp [h]
    · simp only [h, if_false]
      exact ih (by omega)

/-- Agreement only depends on the relay mask and on the hardware trace. -/
theorem in_sync_of_eq (s t : State) (hm : t.relay_state_mask = s.relay_state_mask)
    (hc : t.hw_set_calls = s.hw_set_calls) (h : in_sync s) : in_sync t := by
  intro i hi
  rw [hm, hc]
  exact h i hi

/-- For a valid index `can_relay_set` drives relay `i` to the value it stores in bit `i`,
whatever the state before. -/
theorem set_drives_stored_bit (s : State) (i : Nat) (b : Bool)
    (hm : s.relay_state_mask < 2 ^ 16) (hi : i < 8) :
    hw_drive_state (can_relay_set s i b).2.hw_set_calls i
      = (can_relay_set s i b).2.relay_state_mask.testBit i := by
  have h := set_valid_effect s i b hm hi
  rw [h.2.1, h.2.2.1, hw_drive_state_append]
  simp

/-- The function `can_relay_set` keeps the relay mask and the hardware in agreement. -/
theorem set_keeps_sync (s : State) (i : Nat) (b : Bool)
    (hm : s.relay_state_mask < 2 ^ 16) (hs : in_sync s) : in_sync (can_relay_set s i b).2 := by
  by_cases hi : i < 8
  · have h := set_valid_effect s i b hm hi
    intro j hj
    by_cases hji : j = i
    · rw [hji]
      exact set_drives_stored_bit s i b hm hi
    · rw [h.2.1, h.2.2.2.1 j hji, hw_drive_state_append]
      have hij : ¬ i = j := fun e => hji e.symm
      simp only [hij, if_false]
      exact hs j hj
  · rw [can_relay_set_invalid s i b (by omega)]
    exact in_sync_of_eq s _ rfl rfl hs

/-- The function `can_relay_toggle` keeps the relay mask and the hardware in
agreement. -/
theorem toggle_keeps_sync (s : State) (i : Nat)
    (hm : s.relay_state_mask < 2 ^ 16) (hs : in_sync s) : in_sync (can_relay_toggle s i).2 := by
  by_cases hi : i < 8
  · rw [can_relay_toggle_valid s i hi]
    exact set_keeps_sync s i _ hm hs
  · rw [can_relay_toggle_invalid s i (by omega)]
    exact in_sync_of_eq s _ rfl rfl hs

/-- Relay mask and hardware trace after `can_relay_set_mask`. -/
theorem set_mask_fields (s : State) (m : Nat) :
    (can_relay_set_mask s m).2.relay_state_mask = m &&& 255 ∧
    (can_relay_set_mask s m).2.hw_set_calls
      = s.hw_set_calls ++ (List.range 8).map (fun i => (i, m.testBit i)) := by
  have hloop := drive_loop_effect (fun i => ((m >>> i) &&& 1) != 0) (List.range 8) s
  have hmask : (m &&& ((1 <<< 8) - 1)) % 2 ^ 16 = m &&& 255 := by
    have h255 : (1 <<< 8) - 1 = 255 := by decide
    rw [h255]
    exact Nat.mod_eq_of_lt (lt_of_le_of_lt Nat.and_le_right (by norm_num))
  constructor
  · simp only [can_relay_set_mask, log_message, MAX_RELAYS]
    exact hmask
  · simp only [can_relay_set_mask, log_message, MAX_RELAYS]
    rw [hloop.1]
    congr 1
    apply List.map_congr_left
    intro i _
    rw [shift_and_one_ne_zero]

/-- After `can_relay_set_mask` the relay mask and the hardware agree. -/
theorem set_mask_in_sync (s : State) (m : Nat) : in_sync (can_relay_set_mask s m).2 := by
  have h := set_mask_fields s m
  intro j hj
  have hj8 : j < 8 := hj
  rw [h.1, h.2, hw_drive_state_range _ _ 8 j hj8, testBit_and_255 m j hj8]

/-- What `can_relay_handle_can_msg` does to the relay mask and the hardware trace: either
nothing, or what one `can_relay_set` call with a valid index does. -/
theorem handle_mask_hw_cases (s : State) (can_id : Nat) (data : Option (List Nat))
    (len : Nat) (write_ret : Int) :
    ((can_relay_handle_can_msg s can_id data len write_ret).2.relay_state_mask
        = s.relay_state_mask ∧
      (can_relay_handle_can_msg s can_id data len write_ret).2.hw_set_calls
        = s.hw_set_calls) ∨
    (∃ idx b, idx < 8 ∧
      (can_relay_handle_can_msg s can_id data len write_ret).2.relay_state_mask
        = (can_relay_set s idx b).2.relay_state_mask ∧
      (can_relay_handle_can_msg s can_id data len write_ret).2.hw_set_calls
        = (can_relay_set s idx b).2.hw_set_calls) := by
  unfold can_relay_handle_can_msg
  by_cases hid : (can_id != CAN_CMD_ID) = true
  · simp [hid]
  · simp only [hid, if_false]
    cases data with
    | none => left; simp [log_message]
    | some d =>
      simp only
      have hvi : ∀ i, valid_index i = true → i < 8 := by
        intro i h
        simpa [valid_index, MAX_RELAYS] using h
      have hlog : ∀ (lv : log_level_t) (msg : String),
          (log_message s lv msg).relay_state_mask = s.relay_state_mask ∧
          (log_message s lv msg).hw_set_calls = s.hw_set_calls := fun _ _ => ⟨rfl, rfl⟩
      by_cases h0 : (len == 0) = true
      · simp only [h0, if_true]
        exact Or.inl (hlog _ _)
      simp only [h0, if_false]
      by_cases hset : (d.getD 0 0 == OPCODE_SET) = true
      · simp only [hset, if_true]
        by_cases hl : len < 3
        · simp only [hl, if_true]
          exact Or.inl (hlog _ _)
        simp only [hl, if_false]
        by_cases hv : valid_index (d.getD 1 0) = true
        · simp only [hv, if_true]
          refine Or.inr ⟨d.getD 1 0, (d.getD 2 0 != 0), hvi _ hv, ?_, ?_⟩
          · exact (send_status_single_effect _ _ _).1
          · exact (send_status_single_effect _ _ _).2.1
        · simp only [hv, Bool.false_eq_true, if_false]
          exact Or.inl (hlog _ _)
      simp only [hset, Bool.false_eq_true, if_false]
      by_cases htog : (d.getD 0 0 == OPCODE_TOGGLE) = true
      · simp only [htog, if_true]
        by_cases hl : len < 2
        · simp only [hl, if_true]
          exact Or.inl (hlog _ _)
        simp only [hl, if_false]
        by_cases hv : valid_index (d.getD 1 0) = true
        · simp only [hv, if_true]
          refine Or.inr ⟨d.getD 1 0, (!s.relay_state_mask.testBit (d.getD 1 0)), hvi _ hv,
            ?_, ?_⟩
          · rw [← can_relay_toggle_valid s _ (hvi _ hv)]
            exact (send_status_single_effect _ _ _).1
          · rw [← can_relay_toggle_valid s _ (hvi _ hv)]
            exact (send_status_single_effect _ _ _).2.1
        · simp only [hv, Bool.false_eq_true, if_false]
          exact Or.inl (hlog _ _)
      simp only [htog, Bool.false_eq_true, if_false]
      by_cases hq : (d.getD 0 0 == OPCODE_QUERY) = true
      · simp only [hq, if_true]
        by_cases hl : len < 2
        · simp only [hl, if_true]
          exact Or.inl (hlog _ _)
        simp only [hl, if_false]
        by_cases hv : valid_index (d.getD 1 0) = true
        · simp only [hv, if_true]
          exact Or.inl
            ⟨(send_status_single_effect _ _ _).1, (send_status_single_effect _ _ _).2.1⟩
        · simp only [hv, Bool.false_eq_true, if_false]
          exact Or.inl (hlog _ _)
      simp only [hq, Bool.false_eq_true, if_false]
      by_cases hqa : (d.getD 0 0 == OPCODE_QUERY_ALL) = true
      · simp only [hqa, if_true]
        exact Or.inl ⟨(send_status_all_effect _ _).1, (send_status_all_effect _ _).2.1⟩
      · simp only [hqa, Bool.false_eq_true, if_false]
        exact Or.inl (hlog _ _)

/-- The function `can_relay_handle_can_msg` keeps the relay mask and the hardware in
agreement. -/
theorem handle_keeps_sync (s : State) (can_id : Nat) (data : Option (List Nat))
    (len : Nat) (write_ret : Int) (hm : s.relay_state_mask < 2 ^ 16) (hs : in_sync s) :
    in_sync (can_relay_handle_can_msg s can_id data len write_ret).2 := by
  rcases handle_mask_hw_cases s can_id data len write_ret with ⟨h1, h2⟩ | ⟨idx, b, _, h1, h2⟩
  · exact in_sync_of_eq s _ h1 h2 hs
  · exact in_sync_of_eq _ _ h1 h2 (set_keeps_sync s idx b hm hs)

/-- Claim C13: with the hardware backend modelled as the last state driven for each
relay by `relay_hw_set`, the predicate "for every `i < 8` the drive state of relay `i`
equals bit `i` of the relay mask" is preserved by `can_relay_set`, `can_relay_toggle`,
`can_relay_set_mask` and `can_relay_handle_can_msg` for all arguments; and after a
successful `can_relay_set (i, b)` the drive state of relay `i` equals bit `i` of the
mask whether or not the predicate held before. -/
theorem mutators_preserve_sync (s : State) (hm : s.relay_state_mask < 2 ^ 16) :
    (in_sync s →
      (∀ idx b, in_sync (can_relay_set s idx b).2) ∧
      (∀ idx, in_sync (can_relay_toggle s idx).2) ∧
      (∀ m, in_sync (can_relay_set_mask s m).2) ∧
      (∀ can_id data len write_ret,
        in_sync (can_relay_handle_can_msg s can_id data len write_ret).2)) ∧
    (∀ i b, (can_relay_set s i b).1 = true →
      hw_drive_state (can_relay_set s i b).2.hw_set_calls i
        = (can_relay_set s i b).2.relay_state_mask.testBit i) := by
  refine ⟨fun hs => ⟨fun idx b => set_keeps_sync s idx b hm hs,
    fun idx => toggle_keeps_sync s idx hm hs, fun m => set_mask_in_sync s m,
    fun can_id data len write_ret => handle_keeps_sync s can_id data len write_ret hm hs⟩,
    ?_⟩
  intro i b hok
  by_cases hi : i < 8
  · exact set_drives_stored_bit s i b hm hi
  · rw [can_relay_set_invalid s i b (by omega)] at hok
    exact absurd hok (by simp)

/-- Witness for C13: from the mask `0x05` with relays 0 and 2 driven on, a SET frame for
relay 1, a toggle of relay 2 and a set of the mask `0xA5C3` keep the agreement. -/
theorem mutators_preserve_sync_witness :
    in_sync (can_relay_set
      { State.start with relay_state_mask := 0x05, hw_set_calls := [(0, true), (2, true)] }
      1 true).2 ∧
    in_sync (can_relay_toggle
      { State.start with relay_state_mask := 0x05, hw_set_calls := [(0, true), (2, true)] }
      2).2 ∧
    in_sync (can_relay_set_mask
      { State.start with relay_state_mask := 0x05, hw_set_calls := [(0, true), (2, true)] }
      0xA5C3).2 ∧
    in_sync (can_relay_handle_can_msg
      { State.start with relay_state_mask := 0x05, hw_set_calls := [(0, true), (2, true)] }
      0x400 (some [0x01, 1, 1]) 3 16).2 :=
  have h := (mutators_preserve_sync
    { State.start with relay_state_mask := 0x05, hw_set_calls := [(0, true), (2, true)] }
    (by decide)).1 (by decide)
  ⟨h.1 1 true, h.2.1 2, h.2.2.1 0xA5C3, h.2.2.2 0x400 (some [0x01, 1, 1]) 3 16⟩

/-! ## Transport -/

/-- Result of `can_hw_send` when no socket is open. -/
theorem can_hw_send_closed (s : State) (id : Nat) (data : Option (List Nat)) (len : Nat)
    (write_ret : Int) (hs : s.can_sock < 0) :
    (can_hw_send s id data len write_ret).1 = .CAN_RELAY_ERROR_CAN_SEND_FAILED ∧
    (can_hw_send s id data len write_ret).2.written = s.written ∧
    (can_hw_send s id data len write_ret).2.send_calls
      = s.send_calls ++ [⟨id, data.map (List.take len), len⟩] := by
  simp [can_hw_send, hs, log_message]

/-- Result of `can_hw_send` when the socket is open. -/
theorem can_hw_send_open (s : State) (id : Nat) (data : Option (List Nat)) (len : Nat)
    (write_ret : Int) (hs : 0 ≤ s.can_sock) :
    (can_hw_send s id data len write_ret).1
      = (if write_ret = SIZEOF_CAN_FRAME then .CAN_RELAY_SUCCESS
          else .CAN_RELAY_ERROR_CAN_SEND_FAILED) ∧
    (can_hw_send s id data len write_ret).2.written
      = s.written ++ [build_frame id data len] ∧
    (can_hw_send s id data len write_ret).2.send_calls
      = s.send_calls ++ [⟨id, data.map (List.take len), len⟩] := by
  have hs2 : ¬ s.can_sock < 0 := by omega
  by_cases hw : write_ret = SIZEOF_CAN_FRAME <;> simp [can_hw_send, hs2, hw, log_message]

/-- Counterexample for C14: in the start state no socket is open, and `can_hw_send`
returns `CAN_RELAY_ERROR_CAN_SEND_FAILED`, not `CAN_RELAY_ERROR_CAN_NOT_OPEN`. -/
theorem can_hw_send_not_open_counterexample :
    State.start.can_sock < 0 ∧
    (can_hw_send State.start 0x100 (some [0x57]) 1 16).1
      = .CAN_RELAY_ERROR_CAN_SEND_FAILED ∧
    (can_hw_send State.start 0x100 (some [0x57]) 1 16).1
      ≠ .CAN_RELAY_ERROR_CAN_NOT_OPEN := by
  decide

/-- Log line and written frame of a failing `can_hw_send`: with no socket open the line
is `CAN socket not open` and no frame is handed to `write`; with the socket open and a
write that does not return the frame size the line is `Failed to write CAN frame` and
the frame was handed to `write`. -/
theorem can_hw_send_failure_log (s : State) (id : Nat) (data : Option (List Nat))
    (len : Nat) (write_ret : Int) :
    (s.can_sock < 0 →
      (can_hw_send s id data len write_ret).2.log
        = s.log ++ [(.LOG_ERROR, "CAN socket not open")]) ∧
    (0 ≤ s.can_sock → write_ret ≠ SIZEOF_CAN_FRAME →
      (can_hw_send s id data len write_ret).2.log
        = s.log ++ [(.LOG_ERROR, "Failed to write CAN frame")] ∧
      (can_hw_send s id data len write_ret).2.written
        = s.written ++ [build_frame id data len]) := by
  constructor
  · intro hs
    simp [can_hw_send, hs, log_message]
  · intro hs hw
    have hs2 : ¬ s.can_sock < 0 := by omega
    simp [can_hw_send, hs2, hw, log_message]

/-- Claim C14 as amended: for every id and payload, when no CAN socket is open
`can_hw_send` fails with `CAN_RELAY_ERROR_CAN_SEND_FAILED` without handing a frame to
`write`; this is the same error it returns when the socket is open and the write does
not transmit the full frame, and it never returns `CAN_RELAY_ERROR_CAN_NOT_OPEN`.  The
two failures differ in the ERROR line that is logged (`CAN socket not open` against
`Failed to write CAN frame`) and in whether a frame was handed to `write`, not in the
value returned. -/
theorem can_hw_send_failure_code (s : State) (id : Nat) (data : Option (List Nat))
    (len : Nat) (write_ret : Int) :
    (s.can_sock < 0 →
      (can_hw_send s id data len write_ret).1 = .CAN_RELAY_ERROR_CAN_SEND_FAILED ∧
      (can_hw_send s id data len write_ret).2.written = s.written ∧
      (can_hw_send s id data len write_ret).2.log
        = s.log ++ [(.LOG_ERROR, "CAN socket not open")]) ∧
    (0 ≤ s.can_sock → write_ret ≠ SIZEOF_CAN_FRAME →
      (can_hw_send s id data len write_ret).1 = .CAN_RELAY_ERROR_CAN_SEND_FAILED ∧
      (can_hw_send s id data len write_ret).2.written
        = s.written ++ [build_frame id data len] ∧
      (can_hw_send s id data len write_ret).2.log
        = s.log ++ [(.LOG_ERROR, "Failed to write CAN frame")]) ∧
    (can_hw_send s id data len write_ret).1 ≠ .CAN_RELAY_ERROR_CAN_NOT_OPEN ∧
    ((log_level_t.LOG_ERROR, "CAN socket not open")
      ≠ (log_level_t.LOG_ERROR, "Failed to write CAN frame")) := by
  have hlog := can_hw_send_failure_log s id data len write_ret
  refine ⟨fun hs => ⟨(can_hw_send_closed s id data len write_ret hs).1,
    (can_hw_send_closed s id data len write_ret hs).2.1, hlog.1 hs⟩, ?_, ?_, by decide⟩
  · intro hs hw
    refine ⟨?_, (hlog.2 hs hw).2, (hlog.2 hs hw).1⟩
    rw [(can_hw_send_open s id data len write_ret hs).1]
    simp [hw]
  · by_cases hs : s.can_sock < 0
    · rw [(can_hw_send_closed s id data len write_ret hs).1]
      decide
    · rw [(can_hw_send_open s id data len write_ret (by omega)).1]
      split <;> decide

/-- Witness for C14 as amended: a send with no socket open, and a send on an open socket
whose write transmits 3 of the 16 bytes, both return
`CAN_RELAY_ERROR_CAN_SEND_FAILED`; the first logs `CAN socket not open` and writes no
frame, the second logs `Failed to write CAN frame` after handing the frame to `write`. -/
theorem can_hw_send_failure_code_witness :
    ((can_hw_send State.start 0x100 (some [0x57]) 1 16).1
        = .CAN_RELAY_ERROR_CAN_SEND_FAILED ∧
      (can_hw_send State.start 0x100 (some [0x57]) 1 16).2.written = [] ∧
      (can_hw_send State.start 0x100 (some [0x57]) 1 16).2.log
        = [(.LOG_ERROR, "CAN socket not open")]) ∧
    ((can_hw_send { State.start with can_sock := 3 } 0x100 (some [0x57]) 1 3).1
        = .CAN_RELAY_ERROR_CAN_SEND_FAILED ∧
      (can_hw_send { State.start with can_sock := 3 } 0x100 (some [0x57]) 1 3).2.written
        = [⟨0x100, 1, [0x57, 0, 0, 0, 0, 0, 0, 0]⟩] ∧
      (can_hw_send { State.start with can_sock := 3 } 0x100 (some [0x57]) 1 3).2.log
        = [(.LOG_ERROR, "Failed to write CAN frame")]) :=
  have h1 := (can_hw_send_failure_code State.start 0x100 (some [0x57]) 1 16).1 (by decide)
  have h2 := (can_hw_send_failure_code { State.start with can_sock := 3 } 0x100
    (some [0x57]) 1 3).2.1 (by decide) (by decide)
  ⟨⟨h1.1, h1.2.1, h1.2.2⟩, ⟨h2.1, h2.2.1.trans (by decide), h2.2.2⟩⟩

/-- The frame `build_frame` yields for a non-null payload pointer. -/
theorem build_frame_eq (id : Nat) (d : List Nat) (len : Nat) :
    build_frame id (some d) len
      = ⟨id &&& 0x7FF, min len 8, d.take (min len 8) ++ List.replicate (8 - min len 8) 0⟩ := by
  by_cases h8 : len > 8
  · have hmin : min len 8 = 8 := by omega
    simp [build_frame, zero_frame, memcpy, CAN_SFF_MASK, h8, hmin]
  · have hmin : min len 8 = len := by omega
    by_cases h0 : len = 0
    · simp [build_frame, zero_frame, CAN_SFF_MASK, h0]
    · have hpos : len > 0 := by omega
      have hle : len ≤ 8 := by omega
      simp only [build_frame, zero_frame, memcpy, CAN_SFF_MASK, h8, hmin, hpos, if_true,
        if_false]
      congr 2
      interval_cases len <;> rfl

/-- Claim C15: for every 32-bit id, every payload and every length `len` in `0..255`
(the payload buffer holding at least `len` bytes), when the socket is open the frame
`can_hw_send` builds and hands to `write` has identifier `id & 0x7FF`, data length
`min (len, 8)`, the first `min (len, 8)` payload bytes as data and zeros in the remaining
data bytes; a payload longer than 8 bytes is truncated to its first 8 bytes and the send
still succeeds when the write does. -/
theorem can_hw_send_frame (s : State) (id : Nat) (d : List Nat) (len : Nat)
    (write_ret : Int) (hopen : 0 ≤ s.can_sock) (_hid : id < 2 ^ 32) (_hlen : len ≤ 255)
    (hbuf : len ≤ d.length) :
    (can_hw_send s id (some d) len write_ret).2.written
      = s.written ++
          [⟨id &&& 0x7FF, min len 8,
            d.take (min len 8) ++ List.replicate (8 - min len 8) 0⟩] ∧
    (d.take (min len 8) ++ List.replicate (8 - min len 8) 0).length = 8 ∧
    id &&& 0x7FF < 2 ^ 11 ∧
    (write_ret = SIZEOF_CAN_FRAME →
      (can_hw_send s id (some d) len write_ret).1 = .CAN_RELAY_SUCCESS) := by
  have h := can_hw_send_open s id (some d) len write_ret hopen
  refine ⟨?_, ?_, ?_, ?_⟩
  · rw [h.2.1, build_frame_eq]
  · simp only [List.length_append, List.length_take, List.length_replicate]
    omega
  · exact lt_of_le_of_lt Nat.and_le_right (by norm_num)
  · intro hw
    rw [h.1]
    simp [hw]

/-- Witness for C15: a 10-byte payload sent to the id `0x12345` on an open socket goes
out as the frame `0x345` with its first 8 bytes. -/
theorem can_hw_send_frame_witness :
    (can_hw_send { State.start with can_sock := 3 } 0x12345
      (some [1, 2, 3, 4, 5, 6, 7, 8, 9, 10]) 10 16).2.written
        = [⟨0x345, 8, [1, 2, 3, 4, 5, 6, 7, 8]⟩] ∧
    (can_hw_send { State.start with can_sock := 3 } 0x12345
      (some [1, 2, 3, 4, 5, 6, 7, 8, 9, 10]) 10 16).1 = .CAN_RELAY_SUCCESS :=
  have h := can_hw_send_frame { State.start with can_sock := 3 } 0x12345
    [1, 2, 3, 4, 5, 6, 7, 8, 9, 10] 10 16 (by decide) (by decide) (by decide) (by decide)
  ⟨h.1.trans (by decide), h.2.2.2 (by decide)⟩

/-! ## Telemetry signal encoders -/

/-- The four bytes `send_velocity` copies into its payload buffer. -/
theorem velocity_payload (bo : byte_order) (v : Nat) :
    memcpy (List.replicate 4 0) (object_bytes bo v) 4 = object_bytes bo v := by
  cases bo <;> simp [memcpy, object_bytes]

/-- Reassembling the object representation of a 32-bit pattern yields the pattern. -/
theorem object_value_bytes (bo : byte_order) (v : Nat) (hv : v < 2 ^ 32) :
    object_value bo (object_bytes bo v) = v := by
  cases bo <;> simp [object_value, object_bytes] <;> omega

/-- Result, requests and written frames of `send_battery_level` are those of its
`can_hw_send` call. -/
theorem send_battery_level_fields (s : State) (level : Nat) (write_ret : Int) :
    (send_battery_level s level write_ret).1
      = (can_hw_send s 0x100 (some [level]) 1 write_ret).1 ∧
    (send_battery_level s level write_ret).2.send_calls
      = (can_hw_send s 0x100 (some [level]) 1 write_ret).2.send_calls ∧
    (send_battery_level s level write_ret).2.written
      = (can_hw_send s 0x100 (some [level]) 1 write_ret).2.written := by
  simp only [send_battery_level, CAN_BATTERY_ID]
  split <;> simp [log_message]

/-- Result, requests and written frames of `send_velocity` are those of its
`can_hw_send` call. -/
theorem send_velocity_fields (s : State) (bo : byte_order) (v : Nat) (write_ret : Int) :
    (send_velocity s bo v write_ret).1
      = (can_hw_send s 0x101 (some (object_bytes bo v)) 4 write_ret).1.toInt ∧
    (send_velocity s bo v write_ret).2.send_calls
      = (can_hw_send s 0x101 (some (object_bytes bo v)) 4 write_ret).2.send_calls ∧
    (send_velocity s bo v write_ret).2.written
      = (can_hw_send s 0x101 (some (object_bytes bo v)) 4 write_ret).2.written := by
  simp only [send_velocity, CAN_VELOCITY_ID, velocity_payload]
  split <;> simp [log_message]

/-- Result, requests and written frames of `send_charging_active` are those of its
`can_hw_send` call. -/
theorem send_charging_active_fields (s : State) (b : Bool) (write_ret : Int) :
    (send_charging_active s b write_ret).1
      = (can_hw_send s 0x102 (some [if b then 1 else 0]) 1 write_ret).1.toInt ∧
    (send_charging_active s b write_ret).2.send_calls
      = (can_hw_send s 0x102 (some [if b then 1 else 0]) 1 write_ret).2.send_calls ∧
    (send_charging_active s b write_ret).2.written
      = (can_hw_send s 0x102 (some [if b then 1 else 0]) 1 write_ret).2.written := by
  cases b <;>
    simp only [send_charging_active, CAN_CHARGING_ACTIVE_ID, if_true, Bool.false_eq_true, if_false] <;>
    split <;> simp [log_message]

/-- Result, requests and written frames of `send_charge_request` are those of its
`can_hw_send` call. -/
theorem send_charge_request_fields (s : State) (b : Bool) (write_ret : Int) :
    (send_charge_request s b write_ret).1
      = (can_hw_send s 0x103 (some [if b then 1 else 0]) 1 write_ret).1.toInt ∧
    (send_charge_request s b write_ret).2.send_calls
      = (can_hw_send s 0x103 (some [if b then 1 else 0]) 1 write_ret).2.send_calls ∧
    (send_charge_request s b write_ret).2.written
      = (can_hw_send s 0x103 (some [if b then 1 else 0]) 1 write_ret).2.written := by
  cases b <;>
    simp only [send_charge_request, CAN_CHARGE_REQUEST_ID, if_true, Bool.false_eq_true, if_false] <;>
    split <;> simp [log_message]

/-- Requests recorded by one `can_hw_send` call, in either socket state. -/
theorem can_hw_send_requests (s : State) (id : Nat) (data : Option (List Nat)) (len : Nat)
    (write_ret : Int) :
    (can_hw_send s id data len write_ret).2.send_calls
      = s.send_calls ++ [⟨id, data.map (List.take len), len⟩] := by
  by_cases hs : s.can_sock < 0
  · exact (can_hw_send_closed s id data len write_ret hs).2.2
  · exact (can_hw_send_open s id data len write_ret (by omega)).2.2

/-- Claim C16: each telemetry encoder passes exactly one frame with a fixed id and a
fixed-width payload to the transport.  `send_battery_level (l)` sends id `0x100` with the
1-byte payload `[l]`; `send_velocity (v)` sends id `0x101` with the 4-byte payload that is
the native-endian byte sequence of the 32-bit IEEE-754 pattern of `v`, so reassembling the
four bytes yields the same pattern (`0xC1480000` being the pattern of `-12.5`);
`send_charging_active (b)` sends id `0x102` and `send_charge_request (b)` sends id `0x103`,
each with the 1-byte payload `[1]` if `b` is true and `[0]` otherwise.  With the socket
open these are the frames handed to `write`. -/
theorem telemetry_frames (s : State) (bo : byte_order) (level v : Nat) (b : Bool)
    (write_ret : Int) (_hl : level < 2 ^ 8) (hv : v < 2 ^ 32) :
    (send_battery_level s level write_ret).2.send_calls
      = s.send_calls ++ [⟨0x100, some [level], 1⟩] ∧
    (send_velocity s bo v write_ret).2.send_calls
      = s.send_calls ++ [⟨0x101, some (object_bytes bo v), 4⟩] ∧
    (object_bytes bo v).length = 4 ∧
    object_value bo (object_bytes bo v) = v ∧
    ieee754_single_value 0xC1480000 = some (-25 / 2) ∧
    (send_charging_active s b write_ret).2.send_calls
      = s.send_calls ++ [⟨0x102, some [if b then 1 else 0], 1⟩] ∧
    (send_charge_request s b write_ret).2.send_calls
      = s.send_calls ++ [⟨0x103, some [if b then 1 else 0], 1⟩] ∧
    (0 ≤ s.can_sock →
      (send_battery_level s level write_ret).2.written
        = s.written ++ [⟨0x100, 1, [level, 0, 0, 0, 0, 0, 0, 0]⟩] ∧
      (send_velocity s bo v write_ret).2.written
        = s.written ++ [⟨0x101, 4, object_bytes bo v ++ [0, 0, 0, 0]⟩] ∧
      (send_charging_active s b write_ret).2.written
        = s.written ++ [⟨0x102, 1, [if b then 1 else 0, 0, 0, 0, 0, 0, 0, 0]⟩] ∧
      (send_charge_request s b write_ret).2.written
        = s.written ++ [⟨0x103, 1, [if b then 1 else 0, 0, 0, 0, 0, 0, 0, 0]⟩]) := by
  have hlen : (object_bytes bo v).length = 4 := by cases bo <;> simp [object_bytes]
  have htake : List.take 4 (object_bytes bo v) = object_bytes bo v := by
    rw [List.take_of_length_le (by omega)]
  refine ⟨?_, ?_, hlen, object_value_bytes bo v hv, ?_, ?_, ?_, ?_⟩
  · rw [(send_battery_level_fields s level write_ret).2.1, can_hw_send_requests]
    simp
  · rw [(send_velocity_fields s bo v write_ret).2.1, can_hw_send_requests]
    simp [htake]
  · norm_num [ieee754_single_value]
  · rw [(send_charging_active_fields s b write_ret).2.1, can_hw_send_requests]
    simp
  · rw [(send_charge_request_fields s b write_ret).2.1, can_hw_send_requests]
    simp
  · intro hopen
    refine ⟨?_, ?_, ?_, ?_⟩
    · rw [(send_battery_level_fields s level write_ret).2.2,
        (can_hw_send_open s _ _ _ write_ret hopen).2.1, build_frame_eq]
      simp
      decide
    · rw [(send_velocity_fields s bo v write_ret).2.2,
        (can_hw_send_open s _ _ _ write_ret hopen).2.1, build_frame_eq]
      simp [htake]
      decide
    · rw [(send_charging_active_fields s b write_ret).2.2,
        (can_hw_send_open s _ _ _ write_ret hopen).2.1, build_frame_eq]
      simp
      decide
    · rw [(send_charge_request_fields s b write_ret).2.2,
        (can_hw_send_open s _ _ _ write_ret hopen).2.1, build_frame_eq]
      simp
      decide

/-- Witness for C16: battery level 87, velocity `-12.5` (pattern `0xC1480000`) on a
little-endian platform and the flag `true`, with the socket open. -/
theorem telemetry_frames_witness :
    (send_battery_level { State.start with can_sock := 3 } 87 16).2.send_calls
      = [⟨0x100, some [87], 1⟩] ∧
    (send_velocity { State.start with can_sock := 3 } .little_endian 0xC1480000 16).2.send_calls
      = [⟨0x101, some [0x00, 0x00, 0x48, 0xC1], 4⟩] ∧
    object_value .little_endian [0x00, 0x00, 0x48, 0xC1] = 0xC1480000 ∧
    ieee754_single_value 0xC1480000 = some (-25 / 2) ∧
    (send_charging_active { State.start with can_sock := 3 } true 16).2.send_calls
      = [⟨0x102, some [1], 1⟩] ∧
    (send_charge_request { State.start with can_sock := 3 } true 16).2.written
      = [⟨0x103, 1, [1, 0, 0, 0, 0, 0, 0, 0]⟩] :=
  have h := telemetry_frames { State.start with can_sock := 3 } .little_endian 87 0xC1480000
    true 16 (by decide) (by decide)
  ⟨h.1, h.2.1.trans (by decide), h.2.2.2.1, h.2.2.2.2.1, h.2.2.2.2.2.1,
    (h.2.2.2.2.2.2.2 (by decide)).2.2.2⟩

/-- Claim C17: for every argument, each of `send_battery_level`, `send_velocity`,
`send_charging_active` and `send_charge_request` makes a single `can_hw_send` call and
returns exactly its result: success (`0`) when the socket is open and the write
transmits the full frame, and a non-zero failure value, returned normally, when no socket
is open. -/
theorem telemetry_result (s : State) (bo : byte_order) (level v : Nat) (b : Bool)
    (write_ret : Int) :
    ((send_battery_level s level write_ret).1
        = (can_hw_send s 0x100 (some [level]) 1 write_ret).1 ∧
      (send_velocity s bo v write_ret).1
        = (can_hw_send s 0x101 (some (object_bytes bo v)) 4 write_ret).1.toInt ∧
      (send_charging_active s b write_ret).1
        = (can_hw_send s 0x102 (some [if b then 1 else 0]) 1 write_ret).1.toInt ∧
      (send_charge_request s b write_ret).1
        = (can_hw_send s 0x103 (some [if b then 1 else 0]) 1 write_ret).1.toInt) ∧
    ((send_battery_level s level write_ret).2.send_calls.length = s.send_calls.length + 1 ∧
      (send_velocity s bo v write_ret).2.send_calls.length = s.send_calls.length + 1 ∧
      (send_charging_active s b write_ret).2.send_calls.length = s.send_calls.length + 1 ∧
      (send_charge_request s b write_ret).2.send_calls.length = s.send_calls.length + 1) ∧
    (0 ≤ s.can_sock → write_ret = SIZEOF_CAN_FRAME →
      (send_battery_level s level write_ret).1 = .CAN_RELAY_SUCCESS ∧
      (send_battery_level s level write_ret).1.toInt = 0 ∧
      (send_velocity s bo v write_ret).1 = 0 ∧
      (send_charging_active s b write_ret).1 = 0 ∧
      (send_charge_request s b write_ret).1 = 0) ∧
    (s.can_sock < 0 →
      (send_battery_level s level write_ret).1 ≠ .CAN_RELAY_SUCCESS ∧
      (send_battery_level s level write_ret).1.toInt ≠ 0 ∧
      (send_velocity s bo v write_ret).1 ≠ 0 ∧
      (send_charging_active s b write_ret).1 ≠ 0 ∧
      (send_charge_request s b write_ret).1 ≠ 0) := by
  have hb := send_battery_level_fields s level write_ret
  have hv := send_velocity_fields s bo v write_ret
  have hc := send_charging_active_fields s b write_ret
  have hr := send_charge_request_fields s b write_ret
  refine ⟨⟨hb.1, hv.1, hc.1, hr.1⟩, ⟨?_, ?_, ?_, ?_⟩, ?_, ?_⟩
  · rw [hb.2.1, can_hw_send_requests]; simp
  · rw [hv.2.1, can_hw_send_requests]; simp
  · rw [hc.2.1, can_hw_send_requests]; simp
  · rw [hr.2.1, can_hw_send_requests]; simp
  · intro hopen hw
    rw [hb.1, hv.1, hc.1, hr.1, (can_hw_send_open s _ _ _ write_ret hopen).1,
      (can_hw_send_open s _ _ _ write_ret hopen).1,
      (can_hw_send_open s _ _ _ write_ret hopen).1,
      (can_hw_send_open s _ _ _ write_ret hopen).1]
    simp [hw, can_relay_error_t.toInt]
  · intro hclosed
    rw [hb.1, hv.1, hc.1, hr.1, (can_hw_send_closed s _ _ _ write_ret hclosed).1,
      (can_hw_send_closed s _ _ _ write_ret hclosed).1,
      (can_hw_send_closed s _ _ _ write_ret hclosed).1,
      (can_hw_send_closed s _ _ _ write_ret hclosed).1]
    simp [can_relay_error_t.toInt]

/-- Witness for C17: with an open socket and a full write every encoder returns `0`; in
the start state, where no socket is open, every encoder returns a non-zero value. -/
theorem telemetry_result_witness :
    ((send_battery_level { State.start with can_sock := 3 } 87 16).1.toInt = 0 ∧
      (send_velocity { State.start with can_sock := 3 } .little_endian 0xC1480000 16).1 = 0 ∧
      (send_charging_active { State.start with can_sock := 3 } true 16).1 = 0 ∧
      (send_charge_request { State.start with can_sock := 3 } false 16).1 = 0) ∧
    ((send_battery_level State.start 87 16).1.toInt ≠ 0 ∧
      (send_velocity State.start .little_endian 0xC1480000 16).1 ≠ 0 ∧
      (send_charging_active State.start true 16).1 ≠ 0 ∧
      (send_charge_request State.start true 16).1 ≠ 0) :=
  have h1 := (telemetry_result { State.start with can_sock := 3 } .little_endian 87
    0xC1480000 true 16).2.2.1 (by decide) (by decide)
  have h2 := (telemetry_result { State.start with can_sock := 3 } .little_endian 87
    0xC1480000 false 16).2.2.1 (by decide) (by decide)
  have h3 := (telemetry_result State.start .little_endian 87 0xC1480000 true 16).2.2.2
    (by decide)
  ⟨⟨h1.2.1, h1.2.2.1, h1.2.2.2.1, h2.2.2.2.2⟩, ⟨h3.2.1, h3.2.2.1, h3.2.2.2.1, h3.2.2.2.2⟩⟩

/-- Claim C18, the code at the failing inputs: with no socket open, and with an open
socket whose write transmits 3 of the 16 bytes, `send_velocity`, `send_charging_active`
and `send_charge_request` return `-4` (the value of `CAN_RELAY_ERROR_CAN_SEND_FAILED`),
not the `-1` of their doc comments. -/
theorem telemetry_failure_value :
    ((send_velocity State.start .little_endian 0xC1480000 16).1 = -4 ∧
      (send_charging_active State.start true 16).1 = -4 ∧
      (send_charge_request State.start true 16).1 = -4) ∧
    ((send_velocity { State.start with can_sock := 3 } .little_endian 0xC1480000 3).1 = -4 ∧
      (send_charging_active { State.start with can_sock := 3 } true 3).1 = -4 ∧
      (send_charge_request { State.start with can_sock := 3 } true 3).1 = -4) ∧
    (-4 : Int) ≠ -1 := by
  decide

/-! ## Ingress adapter -/

/-- A string that begins with `pat` is `pat` followed by a remainder. -/
theorem starts_with_append (str pat : List Char) (h : starts_with str pat = true) :
    ∃ rest, str = pat ++ rest := by
  induction pat generalizing str with
  | nil => exact ⟨str, rfl⟩
  | cons p ps ih =>
    cases str with
    | nil => simp [starts_with] at h
    | cons c cs =>
      simp only [starts_with, Bool.and_eq_true, beq_iff_eq] at h
      obtain ⟨rest, hrest⟩ := ih cs h.2
      exact ⟨rest, by rw [h.1, hrest]; rfl⟩

/-- What `strstr` returns begins with the needle. -/
theorem strstr_starts_with (hay needle suf : List Char) (h : strstr hay needle = some suf) :
    starts_with suf needle = true := by
  induction hay with
  | nil =>
    simp only [strstr] at h
    split at h
    · rename_i hs
      cases h
      exact hs
    · cases h
  | cons c cs ih =>
    simp only [strstr] at h
    split at h
    · rename_i hs
      cases h
      exact hs
    · exact ih h

/-- Whenever `extract_signal` succeeds, the name it extracts is the key `signal` itself:
the search for the opening quote starts at the quote that opens the key. -/
theorem extract_signal_is_key (json sig : List Char) (h : extract_signal json = some sig) :
    sig = "signal".toList := by
  unfold extract_signal at h
  cases h1 : strstr json "\"signal\"".toList with
  | none =>
    rw [h1] at h
    cases h
  | some suf =>
    obtain ⟨rest, hrest⟩ := starts_with_append _ _ (strstr_starts_with _ _ _ h1)
    have hk : "\"signal\"".toList ++ rest
        = "\"".toList ++ ("signal".toList ++ ("\"".toList ++ rest)) := rfl
    rw [hk] at hrest
    have h2 : strstr suf "\"".toList = some suf := by
      rw [hrest]
      simp [strstr, starts_with]
    have htail : suf.tail = "signal".toList ++ ("\"".toList ++ rest) := by
      rw [hrest]
      rfl
    have h3 : strstr suf.tail "\"".toList = some ("\"".toList ++ rest) := by
      rw [htail]
      simp [strstr, starts_with]
    have hlen : suf.tail.length - ("\"".toList ++ rest).length = 6 := by
      rw [htail]
      simp only [List.length_append]
      have h6 : "signal".toList.length = 6 := rfl
      omega
    have htake : List.take 6 suf.tail = "signal".toList := by
      rw [htail]
      rfl
    rw [h1] at h
    dsimp only at h
    rw [h2] at h
    dsimp only at h
    rw [h3] at h
    dsimp only at h
    rw [hlen, htake] at h
    have hlt : 6 < SIGNAL_NAME_MAX_LEN := by decide
    rw [if_pos hlt] at h
    exact (Option.some.inj h).symm

/-- For the name `signal` the function `extract_value` fails: it is none of the four
signal names. -/
theorem extract_value_of_key (atoi : List Char → Int) (atof : List Char → Nat)
    (json : List Char) : extract_value atoi atof json "signal".toList = none := by
  have n1 : ¬ "signal".toList = "battery_level".toList := by decide
  have n2 : ¬ "signal".toList = "velocity".toList := by decide
  have n3 : ¬ "signal".toList = "charging_active".toList := by decide
  have n4 : ¬ "signal".toList = "charge_request".toList := by decide
  unfold extract_value
  cases strstr json "\"value\"".toList with
  | none => rfl
  | some v1 =>
    simp only
    cases strstr v1 ":".toList with
    | none => rfl
    | some v2 => simp only [n1, n2, n3, n4, or_self, if_false]

/-- The parser never succeeds: for every input `parse_json` returns `-1` and leaves no
value. -/
theorem parse_json_fails (atoi : List Char → Int) (atof : List Char → Nat)
    (json : Option (List Char)) :
    (parse_json atoi atof json).result = -1 ∧ (parse_json atoi atof json).value = none := by
  cases json with
  | none => simp [parse_json]
  | some j =>
    cases h : extract_signal j with
    | none => simp [parse_json, h]
    | some sig =>
      have hs := extract_signal_is_key j sig h
      subst hs
      have hv := extract_value_of_key atoi atof j
      unfold parse_json
      dsimp only
      rw [h]
      dsimp only
      rw [hv]
      exact ⟨rfl, rfl⟩

/-- No client payload makes `handle_client` call a telemetry encoder: the transport
requests and the written frames stay as they were. -/
theorem handle_client_sends_nothing (atoi : List Char → Int) (atof : List Char → Nat)
    (bo : byte_order) (s : State) (client_sock read_ret : Int) (bytes : List Char)
    (write_ret : Int) :
    (handle_client atoi atof bo s client_sock read_ret bytes write_ret).send_calls
      = s.send_calls ∧
    (handle_client atoi atof bo s client_sock read_ret bytes write_ret).written
      = s.written := by
  have hp := parse_json_fails atoi atof
    (some ((bytes.take read_ret.toNat).takeWhile (fun c => c != Char.ofNat 0)))
  have hne : ((parse_json atoi atof
      (some ((bytes.take read_ret.toNat).takeWhile (fun c => c != Char.ofNat 0)))).result
        == 0) = false := by
    rw [hp.1]
    decide
  unfold handle_client
  by_cases hr : read_ret > 0
  · rw [if_pos hr]
    dsimp only
    rw [hne]
    simp
  · rw [if_neg hr]
    simp

/-- Claim C19, the code at the failing input: for the payload
`("signal": "battery_level", "value": 87)` in braces, whatever `atoi` and `atof` return,
`extract_signal` yields the name `signal`, `parse_json` returns `-1`, and `handle_client`
(socket open, full write) hands nothing to the transport, so `send_battery_level (87)`
is not invoked. -/
theorem parse_json_battery_level_payload (atoi : List Char → Int) (atof : List Char → Nat) :
    extract_signal "\x7b\"signal\": \"battery_level\", \"value\": 87\x7d".toList
      = some "signal".toList ∧
    (parse_json atoi atof
      (some "\x7b\"signal\": \"battery_level\", \"value\": 87\x7d".toList)).result = -1 ∧
    (handle_client atoi atof .little_endian { State.start with can_sock := 3 } 7 40
      "\x7b\"signal\": \"battery_level\", \"value\": 87\x7d".toList 16).send_calls = [] ∧
    (send_battery_level { State.start with can_sock := 3 } 87 16).2.send_calls
      = [⟨0x100, some [87], 1⟩] := by
  refine ⟨by decide, (parse_json_fails atoi atof _).1, ?_, by decide⟩
  exact (handle_client_sends_nothing atoi atof .little_endian
    { State.start with can_sock := 3 } 7 40 _ 16).1

/-! ## Reachable states -/

/-- The function `can_platform_open` touches neither the relay mask nor the hardware
trace. -/
theorem can_platform_open_fields (s : State) (ifname : Option (List Nat))
    (socket_ret ioctl_ret bind_ret : Int) :
    (can_platform_open s ifname socket_ret ioctl_ret bind_ret).2.relay_state_mask
      = s.relay_state_mask ∧
    (can_platform_open s ifname socket_ret ioctl_ret bind_ret).2.hw_set_calls
      = s.hw_set_calls := by
  unfold can_platform_open
  cases ifname with
  | none =>
    dsimp only
    split_ifs <;> exact ⟨rfl, rfl⟩
  | some name =>
    dsimp only
    split_ifs <;> exact ⟨rfl, rfl⟩

/-- The function `can_relay_init` zeroes the relay mask and makes no hardware drive
call. -/
theorem can_relay_init_fields (s : State) (socket_ret ioctl_ret bind_ret : Int) :
    (can_relay_init s socket_ret ioctl_ret bind_ret).relay_state_mask = 0 ∧
    (can_relay_init s socket_ret ioctl_ret bind_ret).hw_set_calls = s.hw_set_calls := by
  have h := can_platform_open_fields (relay_hw_init { s with relay_state_mask := 0 }) none
    socket_ret ioctl_ret bind_ret
  unfold can_relay_init
  simp only [log_message]
  exact ⟨h.1, h.2⟩

/-- The function `can_relay_init_ex` zeroes the relay mask and makes no hardware drive
call. -/
theorem can_relay_init_ex_fields (s : State) (can_iface : Option (List Nat))
    (socket_ret ioctl_ret bind_ret : Int) :
    (can_relay_init_ex s can_iface socket_ret ioctl_ret bind_ret).2.relay_state_mask = 0 ∧
    (can_relay_init_ex s can_iface socket_ret ioctl_ret bind_ret).2.hw_set_calls
      = s.hw_set_calls := by
  have h := can_platform_open_fields (relay_hw_init { s with relay_state_mask := 0 })
    can_iface socket_ret ioctl_ret bind_ret
  unfold can_relay_init_ex
  dsimp only
  split_ifs <;> exact ⟨h.1, h.2⟩

/-- The function `can_relay_set` keeps the relay mask within 16 bits. -/
theorem set_mask_lt (s : State) (i : Nat) (b : Bool) (hm : s.relay_state_mask < 2 ^ 16) :
    (can_relay_set s i b).2.relay_state_mask < 2 ^ 16 := by
  by_cases hi : i < 8
  · exact (set_valid_effect s i b hm hi).2.2.2.2.1
  · rw [can_relay_set_invalid s i b (by omega)]
    exact hm

/-- One API call keeps the relay mask within 16 bits. -/
theorem api_call_mask_lt (s : State) (c : api_call) (hm : s.relay_state_mask < 2 ^ 16) :
    (c.apply s).relay_state_mask < 2 ^ 16 := by
  cases c with
  | init a b c =>
    simp only [api_call.apply]
    rw [(can_relay_init_fields s a b c).1]
    norm_num
  | init_ex n a b c =>
    simp only [api_call.apply]
    rw [(can_relay_init_ex_fields s n a b c).1]
    norm_num
  | set idx b => exact set_mask_lt s idx b hm
  | toggle idx =>
    simp only [api_call.apply]
    by_cases hi : idx < 8
    · rw [can_relay_toggle_valid s idx hi]
      exact set_mask_lt s idx _ hm
    · rw [can_relay_toggle_invalid s idx (by omega)]
      exact hm
  | set_mask m =>
    simp only [api_call.apply]
    rw [(set_mask_fields s m).1]
    exact lt_of_le_of_lt Nat.and_le_right (by norm_num)
  | handle_can_msg can_id data len write_ret =>
    simp only [api_call.apply]
    rcases handle_mask_hw_cases s can_id data len write_ret with ⟨h1, _⟩ | ⟨idx, b, _, h1, _⟩
    · rw [h1]
      exact hm
    · rw [h1]
      exact set_mask_lt s idx b hm

/-- One API call keeps the relay mask and the hardware in agreement, provided an
initialisation call is made only while all relays are driven off. -/
theorem api_call_keeps_sync (s : State) (c : api_call) (hm : s.relay_state_mask < 2 ^ 16)
    (hs : in_sync s) (hoff : c.is_init = true → all_off s) : in_sync (c.apply s) := by
  cases c with
  | init a b c =>
    have hf := can_relay_init_fields s a b c
    intro i hi
    simp only [api_call.apply]
    rw [hf.1, hf.2, hoff rfl i hi]
    simp
  | init_ex n a b c =>
    have hf := can_relay_init_ex_fields s n a b c
    intro i hi
    simp only [api_call.apply]
    rw [hf.1, hf.2, hoff rfl i hi]
    simp
  | set idx b => exact set_keeps_sync s idx b hm hs
  | toggle idx => exact toggle_keeps_sync s idx hm hs
  | set_mask m => exact set_mask_in_sync s m
  | handle_can_msg can_id data len write_ret =>
    exact handle_keeps_sync s can_id data len write_ret hm hs

/-- A sequence of API calls keeps the relay mask within 16 bits and in agreement with
the hardware, provided each initialisation call is made while all relays are driven
off. -/
theorem run_calls_keeps_sync (calls : List api_call) (s : State)
    (hm : s.relay_state_mask < 2 ^ 16) (hs : in_sync s) (hoff : inits_when_off s calls) :
    (run_calls s calls).relay_state_mask < 2 ^ 16 ∧ in_sync (run_calls s calls) := by
  induction calls generalizing s with
  | nil => exact ⟨hm, hs⟩
  | cons c cs ih =>
    simp only [run_calls, List.foldl_cons]
    exact ih (c.apply s) (api_call_mask_lt s c hm) (api_call_keeps_sync s c hm hs hoff.1)
      hoff.2

/-- Counterexample for C20: from module start, an initialisation, `can_relay_set (3, true)`
and a re-initialisation with `can_relay_init` leave the relay mask at zero while the last
state driven for relay 3 is still on. -/
theorem reinit_breaks_sync_counterexample :
    (run_calls State.start [.init 3 0 0, .set 3 true, .init 3 0 0]).relay_state_mask = 0 ∧
    (run_calls State.start [.init 3 0 0, .set 3 true, .init 3 0 0]).hw_set_calls
      = [(3, true)] ∧
    hw_drive_state
      (run_calls State.start [.init 3 0 0, .set 3 true, .init 3 0 0]).hw_set_calls 3 = true ∧
    (run_calls State.start
      [.init 3 0 0, .set 3 true, .init 3 0 0]).relay_state_mask.testBit 3 = false ∧
    ¬ in_sync (run_calls State.start [.init 3 0 0, .set 3 true, .init 3 0 0]) := by
  decide

/-- The function `can_platform_open` makes no `relay_hw_init` call. -/
theorem can_platform_open_hw_init (s : State) (ifname : Option (List Nat))
    (socket_ret ioctl_ret bind_ret : Int) :
    (can_platform_open s ifname socket_ret ioctl_ret bind_ret).2.hw_init_calls
      = s.hw_init_calls := by
  unfold can_platform_open
  cases ifname with
  | none =>
    dsimp only
    split_ifs <;> rfl
  | some name =>
    dsimp only
    split_ifs <;> rfl

/-- Each initialisation function calls `relay_hw_init` exactly once. -/
theorem init_hw_init_calls (s : State) (can_iface : Option (List Nat))
    (socket_ret ioctl_ret bind_ret : Int) :
    (can_relay_init s socket_ret ioctl_ret bind_ret).hw_init_calls = s.hw_init_calls + 1 ∧
    (can_relay_init_ex s can_iface socket_ret ioctl_ret bind_ret).2.hw_init_calls
      = s.hw_init_calls + 1 := by
  have h1 := can_platform_open_hw_init (relay_hw_init { s with relay_state_mask := 0 }) none
    socket_ret ioctl_ret bind_ret
  have h2 := can_platform_open_hw_init (relay_hw_init { s with relay_state_mask := 0 })
    can_iface socket_ret ioctl_ret bind_ret
  constructor
  · unfold can_relay_init
    simp only [log_message]
    exact h1
  · unfold can_relay_init_ex
    dsimp only
    split_ifs <;> exact h2

/-- Claim C20 as amended: in every state reachable from module start (mask 0, all relays
undriven) by any sequence of `can_relay_init`, `can_relay_init_ex`, `can_relay_set`,
`can_relay_toggle`, `can_relay_set_mask` and `can_relay_handle_can_msg` calls in which
each initialisation call is made while every relay is driven off, the last state driven
for each relay `i < 8` equals bit `i` of the relay mask.  A re-initialisation made in
such a state, with either function and whatever the operating system returns, resets
the mask to zero, calls `relay_hw_init` once and makes no `relay_hw_set` call. -/
theorem reachable_in_sync (calls : List api_call)
    (hoff : inits_when_off State.start calls) :
    in_sync (run_calls State.start calls) ∧
    (∀ socket_ret ioctl_ret bind_ret,
      (can_relay_init (run_calls State.start calls) socket_ret ioctl_ret
          bind_ret).relay_state_mask = 0 ∧
      (can_relay_init (run_calls State.start calls) socket_ret ioctl_ret
          bind_ret).hw_init_calls = (run_calls State.start calls).hw_init_calls + 1 ∧
      (can_relay_init (run_calls State.start calls) socket_ret ioctl_ret
          bind_ret).hw_set_calls = (run_calls State.start calls).hw_set_calls) ∧
    (∀ can_iface socket_ret ioctl_ret bind_ret,
      (can_relay_init_ex (run_calls State.start calls) can_iface socket_ret ioctl_ret
          bind_ret).2.relay_state_mask = 0 ∧
      (can_relay_init_ex (run_calls State.start calls) can_iface socket_ret ioctl_ret
          bind_ret).2.hw_init_calls = (run_calls State.start calls).hw_init_calls + 1 ∧
      (can_relay_init_ex (run_calls State.start calls) can_iface socket_ret ioctl_ret
          bind_ret).2.hw_set_calls = (run_calls State.start calls).hw_set_calls) := by
  refine ⟨(run_calls_keeps_sync calls State.start (by decide) (by decide) hoff).2, ?_, ?_⟩
  · intro a b c
    exact ⟨(can_relay_init_fields _ a b c).1, (init_hw_init_calls _ none a b c).1,
      (can_relay_init_fields _ a b c).2⟩
  · intro n a b c
    exact ⟨(can_relay_init_ex_fields _ n a b c).1, (init_hw_init_calls _ n a b c).2,
      (can_relay_init_ex_fields _ n a b c).2⟩

/-- Witness for C20 as amended: initialisation at start, a SET frame, a mask write that
switches every relay off, a re-initialisation and a toggle keep the agreement; a further
`can_relay_init` resets the mask of that state to zero, is the third `relay_hw_init`
call and leaves the hardware trace as it was. -/
theorem reachable_in_sync_witness :
    in_sync (run_calls State.start
      [.init 3 0 0, .handle_can_msg 0x400 (some [0x01, 3, 1]) 3 16, .set_mask 0xA500,
        .init_ex (some [0x63, 0x61, 0x6E, 0x31]) 3 0 0, .toggle 7]) ∧
    (can_relay_init (run_calls State.start
      [.init 3 0 0, .handle_can_msg 0x400 (some [0x01, 3, 1]) 3 16, .set_mask 0xA500,
        .init_ex (some [0x63, 0x61, 0x6E, 0x31]) 3 0 0, .toggle 7]) 3 0 0).relay_state_mask
      = 0 ∧
    (can_relay_init (run_calls State.start
      [.init 3 0 0, .handle_can_msg 0x400 (some [0x01, 3, 1]) 3 16, .set_mask 0xA500,
        .init_ex (some [0x63, 0x61, 0x6E, 0x31]) 3 0 0, .toggle 7]) 3 0 0).hw_init_calls
      = 3 ∧
    hw_drive_state (can_relay_init (run_calls State.start
      [.init 3 0 0, .handle_can_msg 0x400 (some [0x01, 3, 1]) 3 16, .set_mask 0xA500,
        .init_ex (some [0x63, 0x61, 0x6E, 0x31]) 3 0 0, .toggle 7]) 3 0 0).hw_set_calls 7
      = true :=
  have h := reachable_in_sync
    [.init 3 0 0, .handle_can_msg 0x400 (some [0x01, 3, 1]) 3 16, .set_mask 0xA500,
      .init_ex (some [0x63, 0x61, 0x6E, 0x31]) 3 0 0, .toggle 7] (by decide)
  have hi := h.2.1 3 0 0
  ⟨h.1, hi.1, hi.2.1.trans (by decide), by rw [hi.2.2]; decide⟩

/-! ## Range of the relay mask -/

/-- The mask stored by `can_relay_set` for a valid index stays within the low byte. -/
theorem set_result_mask_le (m i : Nat) (b : Bool) (hm : m ≤ 0xFF) (hi : i < 8) :
    set_result_mask m i b ≤ 0xFF := by
  have hm8 : m < 2 ^ 8 := by omega
  have hm16 : m < 2 ^ 16 := by omega
  have h : set_result_mask m i b < 2 ^ 8 := by
    apply Nat.lt_pow_two_of_testBit
    intro j hj
    rw [set_result_mask_testBit m i j b hm16 hi]
    have hji : ¬ j = i := by omega
    simp only [hji, if_false]
    exact Nat.testBit_lt_two_pow (lt_of_lt_of_le hm8 (Nat.pow_le_pow_right (by norm_num) hj))
  omega

/-- The function `can_relay_set` keeps the relay mask within the low byte and leaves the
transport traces alone. -/
theorem set_low_byte (s : State) (i : Nat) (b : Bool) (hm : s.relay_state_mask ≤ 0xFF) :
    (can_relay_set s i b).2.relay_state_mask ≤ 0xFF ∧
    (can_relay_set s i b).2.send_calls = s.send_calls ∧
    (can_relay_set s i b).2.written = s.written ∧
    (can_relay_set s i b).2.can_sock = s.can_sock := by
  by_cases hi : i < 8
  · rw [can_relay_set_valid s i b hi]
    exact ⟨set_result_mask_le _ i b hm hi, rfl, rfl, rfl⟩
  · rw [can_relay_set_invalid s i b (by omega)]
    exact ⟨hm, rfl, rfl, rfl⟩

/-- The function `can_relay_toggle` keeps the relay mask within the low byte and leaves
the transport traces alone. -/
theorem toggle_low_byte (s : State) (i : Nat) (hm : s.relay_state_mask ≤ 0xFF) :
    (can_relay_toggle s i).2.relay_state_mask ≤ 0xFF ∧
    (can_relay_toggle s i).2.send_calls = s.send_calls ∧
    (can_relay_toggle s i).2.written = s.written ∧
    (can_relay_toggle s i).2.can_sock = s.can_sock := by
  by_cases hi : i < 8
  · rw [can_relay_toggle_valid s i hi]
    exact set_low_byte s i _ hm
  · rw [can_relay_toggle_invalid s i (by omega)]
    exact ⟨hm, rfl, rfl, rfl⟩

/-- The high byte of a mask that fits in the low byte is zero, and its low byte is the
mask itself. -/
theorem low_byte_split (m : Nat) (hm : m ≤ 0xFF) :
    m &&& 0xFF = m ∧ (m >>> 8) &&& 0xFF = 0 := by
  constructor
  · have h : (0xFF : Nat) = 2 ^ 8 - 1 := by norm_num
    rw [h, Nat.and_pow_two_sub_one_eq_mod]
    exact Nat.mod_eq_of_lt (by omega)
  · have h : m >>> 8 = 0 := by
      rw [Nat.shiftRight_eq_div_pow]
      exact Nat.div_eq_of_lt (by omega)
    rw [h]
    exact Nat.zero_and _

/-- Transport traces after `send_status_single`: one more request, and one more written
frame when the socket is open. -/
theorem status_single_trace (t : State) (idx : Nat) (write_ret : Int) :
    ∃ bit,
      (send_status_single t idx write_ret).send_calls
        = t.send_calls ++ [⟨0x401, some [0x11, idx, bit], 3⟩] ∧
      ((send_status_single t idx write_ret).written = t.written ∨
        (send_status_single t idx write_ret).written
          = t.written ++ [⟨0x401, 3, [0x11, idx, bit, 0, 0, 0, 0, 0]⟩]) := by
  have h := send_status_single_effect t idx write_ret
  refine ⟨if t.relay_state_mask.testBit idx then 1 else 0, h.2.2.2.1, ?_⟩
  by_cases hs : t.can_sock < 0
  · exact Or.inl (h.2.2.2.2.2 hs)
  · exact Or.inr (h.2.2.2.2.1 (by omega))

/-- Transport traces after `send_status_all`: one more request carrying the two bytes of
the current mask, and one more written frame when the socket is open. -/
theorem status_all_trace (t : State) (write_ret : Int) :
    (send_status_all t write_ret).send_calls
      = t.send_calls ++
          [⟨0x401, some [0x10, t.relay_state_mask &&& 0xFF,
              (t.relay_state_mask >>> 8) &&& 0xFF], 3⟩] ∧
    ((send_status_all t write_ret).written = t.written ∨
      (send_status_all t write_ret).written
        = t.written ++
            [⟨0x401, 3,
              [0x10, t.relay_state_mask &&& 0xFF, (t.relay_state_mask >>> 8) &&& 0xFF,
                0, 0, 0, 0, 0]⟩]) := by
  have h := send_status_all_effect t write_ret
  refine ⟨h.2.2.2.1, ?_⟩
  by_cases hs : t.can_sock < 0
  · exact Or.inl (h.2.2.2.2.2 hs)
  · exact Or.inr (h.2.2.2.2.1 (by omega))

/-- The functions `can_relay_set` and `can_relay_toggle` leave the transport traces
alone. -/
theorem set_toggle_traces (s : State) (i : Nat) (b : Bool) :
    ((can_relay_set s i b).2.send_calls = s.send_calls ∧
      (can_relay_set s i b).2.written = s.written) ∧
    ((can_relay_toggle s i).2.send_calls = s.send_calls ∧
      (can_relay_toggle s i).2.written = s.written) := by
  by_cases hi : i < 8
  · rw [can_relay_toggle_valid s i hi, can_relay_set_valid s i b hi,
      can_relay_set_valid s i _ hi]
    exact ⟨⟨rfl, rfl⟩, ⟨rfl, rfl⟩⟩
  · rw [can_relay_toggle_invalid s i (by omega), can_relay_set_invalid s i b (by omega)]
    exact ⟨⟨rfl, rfl⟩, ⟨rfl, rfl⟩⟩

/-- What `can_relay_handle_can_msg` adds to the transport traces: nothing, or one
SingleStatus reply, or one AllStatus reply carrying the two bytes of the mask. -/
theorem handle_trace_cases (s : State) (can_id : Nat) (data : Option (List Nat))
    (len : Nat) (write_ret : Int) :
    ((can_relay_handle_can_msg s can_id data len write_ret).2.send_calls = s.send_calls ∧
      (can_relay_handle_can_msg s can_id data len write_ret).2.written = s.written) ∨
    (∃ idx bit,
      (can_relay_handle_can_msg s can_id data len write_ret).2.send_calls
        = s.send_calls ++ [⟨0x401, some [0x11, idx, bit], 3⟩] ∧
      ((can_relay_handle_can_msg s can_id data len write_ret).2.written = s.written ∨
        (can_relay_handle_can_msg s can_id data len write_ret).2.written
          = s.written ++ [⟨0x401, 3, [0x11, idx, bit, 0, 0, 0, 0, 0]⟩])) ∨
    ((can_relay_handle_can_msg s can_id data len write_ret).2.send_calls
        = s.send_calls ++
            [⟨0x401, some [0x10, s.relay_state_mask &&& 0xFF,
                (s.relay_state_mask >>> 8) &&& 0xFF], 3⟩] ∧
      ((can_relay_handle_can_msg s can_id data len write_ret).2.written = s.written ∨
        (can_relay_handle_can_msg s can_id data len write_ret).2.written
          = s.written ++
              [⟨0x401, 3,
                [0x10, s.relay_state_mask &&& 0xFF, (s.relay_state_mask >>> 8) &&& 0xFF,
                  0, 0, 0, 0, 0]⟩])) := by
  have hsingle : ∀ (t : State) (idx : Nat), t.send_calls = s.send_calls →
      t.written = s.written →
      ∃ i bit,
        (send_status_single t idx write_ret).send_calls
          = s.send_calls ++ [⟨0x401, some [0x11, i, bit], 3⟩] ∧
        ((send_status_single t idx write_ret).written = s.written ∨
          (send_status_single t idx write_ret).written
            = s.written ++ [⟨0x401, 3, [0x11, i, bit, 0, 0, 0, 0, 0]⟩]) := by
    intro t idx h1 h2
    obtain ⟨bit, hb1, hb2⟩ := status_single_trace t idx write_ret
    rw [h1] at hb1
    rw [h2] at hb2
    exact ⟨idx, bit, hb1, hb2⟩
  unfold can_relay_handle_can_msg
  by_cases hid : (can_id != CAN_CMD_ID) = true
  · simp [hid]
  · simp only [hid, if_false]
    cases data with
    | none => exact Or.inl ⟨rfl, rfl⟩
    | some d =>
      simp only
      have hlog : ∀ (lv : log_level_t) (msg : String),
          (log_message s lv msg).send_calls = s.send_calls ∧
          (log_message s lv msg).written = s.written := fun _ _ => ⟨rfl, rfl⟩
      by_cases h0 : (len == 0) = true
      · simp only [h0, if_true]
        exact Or.inl (hlog _ _)
      simp only [h0, if_false]
      by_cases hset : (d.getD 0 0 == OPCODE_SET) = true
      · simp only [hset, if_true]
        by_cases hl : len < 3
        · simp only [hl, if_true]
          exact Or.inl (hlog _ _)
        simp only [hl, if_false]
        by_cases hv : valid_index (d.getD 1 0) = true
        · simp only [hv, if_true]
          exact Or.inr (Or.inl (hsingle _ _ (set_toggle_traces s _ _).1.1
            (set_toggle_traces s _ _).1.2))
        · simp only [hv, Bool.false_eq_true, if_false]
          exact Or.inl (hlog _ _)
      simp only [hset, Bool.false_eq_true, if_false]
      by_cases htog : (d.getD 0 0 == OPCODE_TOGGLE) = true
      · simp only [htog, if_true]
        by_cases hl : len < 2
        · simp only [hl, if_true]
          exact Or.inl (hlog _ _)
        simp only [hl, if_false]
        by_cases hv : valid_index (d.getD 1 0) = true
        · simp only [hv, if_true]
          exact Or.inr (Or.inl (hsingle _ _ (set_toggle_traces s _ true).2.1
            (set_toggle_traces s _ true).2.2))
        · simp only [hv, Bool.false_eq_true, if_false]
          exact Or.inl (hlog _ _)
      simp only [htog, Bool.false_eq_true, if_false]
      by_cases hq : (d.getD 0 0 == OPCODE_QUERY) = true
      · simp only [hq, if_true]
        by_cases hl : len < 2
        · simp only [hl, if_true]
          exact Or.inl (hlog _ _)
        simp only [hl, if_false]
        by_cases hv : valid_index (d.getD 1 0) = true
        · simp only [hv, if_true]
          exact Or.inr (Or.inl (hsingle s _ rfl rfl))
        · simp only [hv, Bool.false_eq_true, if_false]
          exact Or.inl (hlog _ _)
      simp only [hq, Bool.false_eq_true, if_false]
      by_cases hqa : (d.getD 0 0 == OPCODE_QUERY_ALL) = true
      · simp only [hqa, if_true]
        exact Or.inr (Or.inr (status_all_trace s write_ret))
      · simp only [hqa, Bool.false_eq_true, if_false]
        exact Or.inl (hlog _ _)

/-- The function `can_platform_open` leaves the transport traces alone. -/
theorem can_platform_open_traces (s : State) (ifname : Option (List Nat))
    (socket_ret ioctl_ret bind_ret : Int) :
    (can_platform_open s ifname socket_ret ioctl_ret bind_ret).2.send_calls = s.send_calls ∧
    (can_platform_open s ifname socket_ret ioctl_ret bind_ret).2.written = s.written := by
  unfold can_platform_open
  cases ifname with
  | none =>
    dsimp only
    split_ifs <;> exact ⟨rfl, rfl⟩
  | some name =>
    dsimp only
    split_ifs <;> exact ⟨rfl, rfl⟩

/-- The initialisation functions leave the transport traces alone. -/
theorem init_traces (s : State) (can_iface : Option (List Nat))
    (socket_ret ioctl_ret bind_ret : Int) :
    ((can_relay_init s socket_ret ioctl_ret bind_ret).send_calls = s.send_calls ∧
      (can_relay_init s socket_ret ioctl_ret bind_ret).written = s.written) ∧
    ((can_relay_init_ex s can_iface socket_ret ioctl_ret bind_ret).2.send_calls
        = s.send_calls ∧
      (can_relay_init_ex s can_iface socket_ret ioctl_ret bind_ret).2.written = s.written) := by
  have h1 := can_platform_open_traces (relay_hw_init { s with relay_state_mask := 0 }) none
    socket_ret ioctl_ret bind_ret
  have h2 := can_platform_open_traces (relay_hw_init { s with relay_state_mask := 0 })
    can_iface socket_ret ioctl_ret bind_ret
  constructor
  · unfold can_relay_init
    simp only [log_message]
    exact ⟨h1.1, h1.2⟩
  · unfold can_relay_init_ex
    dsimp only
    split_ifs <;> exact ⟨h2.1, h2.2⟩

/-- The function `can_relay_set_mask` leaves the transport traces alone. -/
theorem set_mask_traces (s : State) (m : Nat) :
    (can_relay_set_mask s m).2.send_calls = s.send_calls ∧
    (can_relay_set_mask s m).2.written = s.written := by
  have hloop := drive_loop_effect (fun i => ((m >>> i) &&& 1) != 0) (List.range 8) s
  simp only [can_relay_set_mask, log_message, MAX_RELAYS]
  exact ⟨hloop.2.2.2.2.2.1, hloop.2.2.2.2.2.2.1⟩

/-- The property `all_status_high_zero` survives when each transport trace is unchanged
or grows by one entry that is not an AllStatus reply with a non-zero high byte. -/
theorem high_zero_extend (s t : State) (h : all_status_high_zero s)
    (hsend : t.send_calls = s.send_calls ∨
      ∃ r, t.send_calls = s.send_calls ++ [r] ∧
        ∀ lo hi, r.data = some [STATUS_ALL, lo, hi] → hi = 0)
    (hwr : t.written = s.written ∨
      ∃ f, t.written = s.written ++ [f] ∧
        ∀ lo hi tl, f.data = STATUS_ALL :: lo :: hi :: tl → hi = 0) :
    all_status_high_zero t := by
  constructor
  · intro r hr lo hi hd
    rcases hsend with he | ⟨r0, he, h0⟩
    · rw [he] at hr
      exact h.1 r hr lo hi hd
    · rw [he, List.mem_append, List.mem_singleton] at hr
      rcases hr with hr | hr
      · exact h.1 r hr lo hi hd
      · rw [hr] at hd
        exact h0 lo hi hd
  · intro f hf lo hi tl hd
    rcases hwr with he | ⟨f0, he, h0⟩
    · rw [he] at hf
      exact h.2 f hf lo hi tl hd
    · rw [he, List.mem_append, List.mem_singleton] at hf
      rcases hf with hf | hf
      · exact h.2 f hf lo hi tl hd
      · rw [hf] at hd
        exact h0 lo hi tl hd

/-- One API call keeps the relay mask within the low byte and the high byte of every
recorded AllStatus reply at zero. -/
theorem api_call_low_byte (s : State) (c : api_call) (hm : s.relay_state_mask ≤ 0xFF)
    (hz : all_status_high_zero s) :
    (c.apply s).relay_state_mask ≤ 0xFF ∧ all_status_high_zero (c.apply s) := by
  cases c with
  | init a b c =>
    simp only [api_call.apply]
    have ht := (init_traces s none a b c).1
    refine ⟨?_, high_zero_extend s _ hz (Or.inl ht.1) (Or.inl ht.2)⟩
    rw [(can_relay_init_fields s a b c).1]
    norm_num
  | init_ex n a b c =>
    simp only [api_call.apply]
    have ht := (init_traces s n a b c).2
    refine ⟨?_, high_zero_extend s _ hz (Or.inl ht.1) (Or.inl ht.2)⟩
    rw [(can_relay_init_ex_fields s n a b c).1]
    norm_num
  | set idx b =>
    simp only [api_call.apply]
    have ht := (set_toggle_traces s idx b).1
    exact ⟨(set_low_byte s idx b hm).1, high_zero_extend s _ hz (Or.inl ht.1) (Or.inl ht.2)⟩
  | toggle idx =>
    simp only [api_call.apply]
    have ht := (set_toggle_traces s idx true).2
    exact ⟨(toggle_low_byte s idx hm).1, high_zero_extend s _ hz (Or.inl ht.1) (Or.inl ht.2)⟩
  | set_mask m =>
    simp only [api_call.apply]
    have ht := set_mask_traces s m
    refine ⟨?_, high_zero_extend s _ hz (Or.inl ht.1) (Or.inl ht.2)⟩
    rw [(set_mask_fields s m).1]
    exact Nat.and_le_right
  | handle_can_msg can_id data len write_ret =>
    simp only [api_call.apply]
    constructor
    · rcases handle_mask_hw_cases s can_id data len write_ret with
        ⟨h1, _⟩ | ⟨idx, b, _, h1, _⟩
      · rw [h1]
        exact hm
      · rw [h1]
        exact (set_low_byte s idx b hm).1
    · have hhi := (low_byte_split s.relay_state_mask hm).2
      rcases handle_trace_cases s can_id data len write_ret with
        ⟨h1, h2⟩ | ⟨idx, bit, h1, h2⟩ | ⟨h1, h2⟩
      · exact high_zero_extend s _ hz (Or.inl h1) (Or.inl h2)
      · refine high_zero_extend s _ hz (Or.inr ⟨_, h1, ?_⟩) ?_
        · intro lo hi hd
          simp [STATUS_ALL] at hd
        · rcases h2 with h2 | h2
          · exact Or.inl h2
          · refine Or.inr ⟨_, h2, ?_⟩
            intro lo hi tl hd
            simp [STATUS_ALL] at hd
      · refine high_zero_extend s _ hz (Or.inr ⟨_, h1, ?_⟩) ?_
        · intro lo hi hd
          simp only [Option.some.injEq, List.cons.injEq] at hd
          rw [← hd.2.2.1]
          exact hhi
        · rcases h2 with h2 | h2
          · exact Or.inl h2
          · refine Or.inr ⟨_, h2, ?_⟩
            intro lo hi tl hd
            simp only [List.cons.injEq] at hd
            rw [← hd.2.2.1]
            exact hhi

/-- A sequence of API calls keeps the relay mask within the low byte and the high byte
of every recorded AllStatus reply at zero. -/
theorem run_calls_low_byte (calls : List api_call) (s : State)
    (hm : s.relay_state_mask ≤ 0xFF) (hz : all_status_high_zero s) :
    (run_calls s calls).relay_state_mask ≤ 0xFF ∧ all_status_high_zero (run_calls s calls) := by
  induction calls generalizing s with
  | nil => exact ⟨hm, hz⟩
  | cons c cs ih =>
    simp only [run_calls, List.foldl_cons]
    exact ih (c.apply s) (api_call_low_byte s c hm hz).1 (api_call_low_byte s c hm hz).2

/-- Claim C21: in every state reachable from initialisation (mask 0) by any sequence of
`can_relay_init`, `can_relay_init_ex`, `can_relay_set`, `can_relay_toggle`,
`can_relay_set_mask` and `can_relay_handle_can_msg` calls with arbitrary arguments, the
relay mask is at most `0xFF` (bits 8 and above are clear); consequently the third byte
(the mask high byte) of every AllStatus reply is 0, for the replies already recorded
and for the reply a QUERY_ALL frame produces next. -/
theorem reachable_mask_low_byte (calls : List api_call) :
    (run_calls State.start calls).relay_state_mask ≤ 0xFF ∧
    (∀ j, 8 ≤ j → (run_calls State.start calls).relay_state_mask.testBit j = false) ∧
    all_status_high_zero (run_calls State.start calls) ∧
    (∀ rest len write_ret, 1 ≤ len →
      (can_relay_handle_can_msg (run_calls State.start calls) 0x400 (some (0x04 :: rest)) len
        write_ret).2.send_calls
        = (run_calls State.start calls).send_calls ++
            [⟨0x401, some [0x10, (run_calls State.start calls).relay_state_mask, 0], 3⟩]) := by
  have hstart : all_status_high_zero State.start := by
    constructor
    · intro r hr
      simp [State.start] at hr
    · intro f hf
      simp [State.start] at hf
  have h := run_calls_low_byte calls State.start (by decide) hstart
  refine ⟨h.1, ?_, h.2, ?_⟩
  · intro j hj
    have h8 : (run_calls State.start calls).relay_state_mask < 2 ^ 8 :=
      lt_of_le_of_lt h.1 (by norm_num)
    exact Nat.testBit_lt_two_pow (lt_of_lt_of_le h8 (Nat.pow_le_pow_right (by norm_num) hj))
  · intro rest len write_ret hlen
    have hsplit := low_byte_split (run_calls State.start calls).relay_state_mask h.1
    rw [handle_query_all _ rest len write_ret hlen]
    have hsend := send_status_all_effect (run_calls State.start calls) write_ret
    rw [hsplit.1, hsplit.2] at hsend
    exact hsend.2.2.2.1

/-- Witness for C21: after an initialisation, a mask write of `0xFFFF`, a QUERY_ALL frame,
a toggle with the index 200 and a SET frame the mask is `0xFF` and the recorded AllStatus
reply is `[0x10, 0xFF, 0x00]`. -/
theorem reachable_mask_low_byte_witness :
    (run_calls State.start
      [.init 3 0 0, .set_mask 0xFFFF, .handle_can_msg 0x400 (some [0x04]) 1 16, .toggle 200,
        .handle_can_msg 0x400 (some [0x01, 7, 1]) 3 16]).relay_state_mask ≤ 0xFF ∧
    all_status_high_zero (run_calls State.start
      [.init 3 0 0, .set_mask 0xFFFF, .handle_can_msg 0x400 (some [0x04]) 1 16, .toggle 200,
        .handle_can_msg 0x400 (some [0x01, 7, 1]) 3 16]) ∧
    (run_calls State.start
      [.init 3 0 0, .set_mask 0xFFFF, .handle_can_msg 0x400 (some [0x04]) 1 16, .toggle 200,
        .handle_can_msg 0x400 (some [0x01, 7, 1]) 3 16]).send_calls
      = [⟨0x401, some [0x10, 0xFF, 0x00], 3⟩, ⟨0x401, some [0x11, 7, 1], 3⟩] :=
  have h := reachable_mask_low_byte
    [.init 3 0 0, .set_mask 0xFFFF, .handle_can_msg 0x400 (some [0x04]) 1 16, .toggle 200,
      .handle_can_msg 0x400 (some [0x01, 7, 1]) 3 16]
  ⟨h.1, h.2.2.1, by decide⟩

/-! ## Independence of the relay state from the transport -/

/-- What `can_relay_set` and `can_relay_toggle` do to the relay mask and the hardware
trace depends only on the relay mask and the hardware trace. -/
theorem set_toggle_relay_eq (s1 s2 : State) (i : Nat) (b : Bool)
    (hm : s1.relay_state_mask = s2.relay_state_mask)
    (hh : s1.hw_set_calls = s2.hw_set_calls) :
    ((can_relay_set s1 i b).2.relay_state_mask = (can_relay_set s2 i b).2.relay_state_mask ∧
      (can_relay_set s1 i b).2.hw_set_calls = (can_relay_set s2 i b).2.hw_set_calls) ∧
    ((can_relay_toggle s1 i).2.relay_state_mask = (can_relay_toggle s2 i).2.relay_state_mask ∧
      (can_relay_toggle s1 i).2.hw_set_calls = (can_relay_toggle s2 i).2.hw_set_calls) := by
  by_cases hi : i < 8
  · rw [can_relay_toggle_valid s1 i hi, can_relay_toggle_valid s2 i hi,
      can_relay_set_valid s1 i b hi, can_relay_set_valid s2 i b hi,
      can_relay_set_valid s1 i _ hi, can_relay_set_valid s2 i _ hi]
    dsimp only
    rw [hm, hh]
    exact ⟨⟨rfl, rfl⟩, ⟨rfl, rfl⟩⟩
  · rw [can_relay_toggle_invalid s1 i (by omega), can_relay_toggle_invalid s2 i (by omega),
      can_relay_set_invalid s1 i b (by omega), can_relay_set_invalid s2 i b (by omega)]
    exact ⟨⟨hm, hh⟩, ⟨hm, hh⟩⟩

/-- The return value of `can_relay_handle_can_msg` and what it does to the relay mask and
the hardware trace depend only on the frame, the relay mask and the hardware trace: not
on the socket, the earlier transport traces or the result of `write`. -/
theorem handle_relay_effect_eq (s1 s2 : State) (can_id : Nat) (data : Option (List Nat))
    (len : Nat) (wr1 wr2 : Int)
    (hm : s1.relay_state_mask = s2.relay_state_mask)
    (hh : s1.hw_set_calls = s2.hw_set_calls) :
    (can_relay_handle_can_msg s1 can_id data len wr1).1
      = (can_relay_handle_can_msg s2 can_id data len wr2).1 ∧
    (can_relay_handle_can_msg s1 can_id data len wr1).2.relay_state_mask
      = (can_relay_handle_can_msg s2 can_id data len wr2).2.relay_state_mask ∧
    (can_relay_handle_can_msg s1 can_id data len wr1).2.hw_set_calls
      = (can_relay_handle_can_msg s2 can_id data len wr2).2.hw_set_calls := by
  have hsingle : ∀ (t1 t2 : State) (idx : Nat),
      t1.relay_state_mask = t2.relay_state_mask → t1.hw_set_calls = t2.hw_set_calls →
      (send_status_single t1 idx wr1).relay_state_mask
        = (send_status_single t2 idx wr2).relay_state_mask ∧
      (send_status_single t1 idx wr1).hw_set_calls
        = (send_status_single t2 idx wr2).hw_set_calls := by
    intro t1 t2 idx h1 h2
    rw [(send_status_single_effect t1 idx wr1).1, (send_status_single_effect t2 idx wr2).1,
      (send_status_single_effect t1 idx wr1).2.1, (send_status_single_effect t2 idx wr2).2.1]
    exact ⟨h1, h2⟩
  have hall : (send_status_all s1 wr1).relay_state_mask
        = (send_status_all s2 wr2).relay_state_mask ∧
      (send_status_all s1 wr1).hw_set_calls = (send_status_all s2 wr2).hw_set_calls := by
    rw [(send_status_all_effect s1 wr1).1, (send_status_all_effect s2 wr2).1,
      (send_status_all_effect s1 wr1).2.1, (send_status_all_effect s2 wr2).2.1]
    exact ⟨hm, hh⟩
  unfold can_relay_handle_can_msg
  by_cases hid : (can_id != CAN_CMD_ID) = true
  · simp only [hid, Bool.false_eq_true, if_true, if_false]
    exact ⟨trivial, hm, hh⟩
  · simp only [hid, Bool.false_eq_true, if_true, if_false]
    cases data with
    | none => exact ⟨rfl, hm, hh⟩
    | some d =>
      dsimp only
      by_cases h0 : (len == 0) = true
      · simp only [h0, Bool.false_eq_true, if_true, if_false]
        exact ⟨trivial, hm, hh⟩
      simp only [h0, Bool.false_eq_true, if_true, if_false]
      by_cases hset : (d.getD 0 0 == OPCODE_SET) = true
      · simp only [hset, Bool.false_eq_true, if_true, if_false]
        by_cases hl : len < 3
        · simp only [hl, Bool.false_eq_true, if_true, if_false]
          exact ⟨trivial, hm, hh⟩
        simp only [hl, Bool.false_eq_true, if_true, if_false]
        by_cases hv : valid_index (d.getD 1 0) = true
        · simp only [hv, Bool.false_eq_true, if_true, if_false]
          exact ⟨trivial, hsingle _ _ _ (set_toggle_relay_eq s1 s2 _ _ hm hh).1.1
            (set_toggle_relay_eq s1 s2 _ _ hm hh).1.2⟩
        · simp only [hv, Bool.false_eq_true, if_true, if_false]
          exact ⟨trivial, hm, hh⟩
      simp only [hset, Bool.false_eq_true, if_true, if_false]
      by_cases htog : (d.getD 0 0 == OPCODE_TOGGLE) = true
      · simp only [htog, Bool.false_eq_true, if_true, if_false]
        by_cases hl : len < 2
        · simp only [hl, Bool.false_eq_true, if_true, if_false]
          exact ⟨trivial, hm, hh⟩
        simp only [hl, Bool.false_eq_true, if_true, if_false]
        by_cases hv : valid_index (d.getD 1 0) = true
        · simp only [hv, Bool.false_eq_true, if_true, if_false]
          exact ⟨trivial, hsingle _ _ _ (set_toggle_relay_eq s1 s2 _ true hm hh).2.1
            (set_toggle_relay_eq s1 s2 _ true hm hh).2.2⟩
        · simp only [hv, Bool.false_eq_true, if_true, if_false]
          exact ⟨trivial, hm, hh⟩
      simp only [htog, Bool.false_eq_true, if_true, if_false]
      by_cases hq : (d.getD 0 0 == OPCODE_QUERY) = true
      · simp only [hq, Bool.false_eq_true, if_true, if_false]
        by_cases hl : len < 2
        · simp only [hl, Bool.false_eq_true, if_true, if_false]
          exact ⟨trivial, hm, hh⟩
        simp only [hl, Bool.false_eq_true, if_true, if_false]
        by_cases hv : valid_index (d.getD 1 0) = true
        · simp only [hv, Bool.false_eq_true, if_true, if_false]
          exact ⟨trivial, hsingle _ _ _ hm hh⟩
        · simp only [hv, Bool.false_eq_true, if_true, if_false]
          exact ⟨trivial, hm, hh⟩
      simp only [hq, Bool.false_eq_true, if_true, if_false]
      by_cases hqa : (d.getD 0 0 == OPCODE_QUERY_ALL) = true
      · simp only [hqa, Bool.false_eq_true, if_true, if_false]
        exact ⟨trivial, hall⟩
      · simp only [hqa, Bool.false_eq_true, if_true, if_false]
        exact ⟨trivial, hm, hh⟩

/-- Claim C22: the effect of `can_relay_handle_can_msg` on the relay state does not depend
on the transport.  For every arbitration id, payload and prior state, two runs that
differ only in the CAN socket (open or not) and in the result of the status write end
with the same return value, the same relay mask and the same hardware drive calls;
and a SET or TOGGLE command with a valid index, run with no socket open so that nothing
is written, still changes the mask bit and drives the relay. -/
theorem handle_independent_of_transport (s : State) (sock1 sock2 : Int) (can_id : Nat)
    (data : Option (List Nat)) (len : Nat) (wr1 wr2 : Int) :
    ((can_relay_handle_can_msg { s with can_sock := sock1 } can_id data len wr1).1
        = (can_relay_handle_can_msg { s with can_sock := sock2 } can_id data len wr2).1 ∧
      (can_relay_handle_can_msg { s with can_sock := sock1 } can_id data len
          wr1).2.relay_state_mask
        = (can_relay_handle_can_msg { s with can_sock := sock2 } can_id data len
            wr2).2.relay_state_mask ∧
      (can_relay_handle_can_msg { s with can_sock := sock1 } can_id data len
          wr1).2.hw_set_calls
        = (can_relay_handle_can_msg { s with can_sock := sock2 } can_id data len
            wr2).2.hw_set_calls) ∧
    (∀ idx v rest, s.relay_state_mask < 2 ^ 16 → idx < 8 → 3 ≤ len → sock1 < 0 →
      (can_relay_handle_can_msg { s with can_sock := sock1 } 0x400
          (some (0x01 :: idx :: v :: rest)) len wr1).2.relay_state_mask.testBit idx
        = (v != 0) ∧
      (can_relay_handle_can_msg { s with can_sock := sock1 } 0x400
          (some (0x01 :: idx :: v :: rest)) len wr1).2.hw_set_calls
        = s.hw_set_calls ++ [(idx, v != 0)] ∧
      (can_relay_handle_can_msg { s with can_sock := sock1 } 0x400
          (some (0x01 :: idx :: v :: rest)) len wr1).2.written = s.written) ∧
    (∀ idx rest, s.relay_state_mask < 2 ^ 16 → idx < 8 → 2 ≤ len → sock1 < 0 →
      (can_relay_handle_can_msg { s with can_sock := sock1 } 0x400
          (some (0x02 :: idx :: rest)) len wr1).2.relay_state_mask.testBit idx
        = (!s.relay_state_mask.testBit idx) ∧
      (can_relay_handle_can_msg { s with can_sock := sock1 } 0x400
          (some (0x02 :: idx :: rest)) len wr1).2.hw_set_calls
        = s.hw_set_calls ++ [(idx, !s.relay_state_mask.testBit idx)] ∧
      (can_relay_handle_can_msg { s with can_sock := sock1 } 0x400
          (some (0x02 :: idx :: rest)) len wr1).2.written = s.written) := by
  refine ⟨handle_relay_effect_eq _ _ can_id data len wr1 wr2 rfl rfl, ?_, ?_⟩
  · intro idx v rest hm hi hlen hclosed
    have hset := set_valid_effect { s with can_sock := sock1 } idx (v != 0) hm hi
    have hsend := send_status_single_effect
      (can_relay_set { s with can_sock := sock1 } idx (v != 0)).2 idx wr1
    have hsock : (can_relay_set { s with can_sock := sock1 } idx (v != 0)).2.can_sock < 0 := by
      rw [can_relay_set_valid _ idx _ hi]
      exact hclosed
    have hwr : (can_relay_set { s with can_sock := sock1 } idx (v != 0)).2.written
        = s.written := by
      rw [can_relay_set_valid _ idx _ hi]
    rw [handle_set_valid _ idx v rest len wr1 hi hlen]
    dsimp only
    rw [hsend.1, hsend.2.1, hsend.2.2.2.2.2 hsock]
    exact ⟨hset.2.2.1, hset.2.1, hwr⟩
  · intro idx rest hm hi hlen hclosed
    have htog := can_relay_toggle_valid { s with can_sock := sock1 } idx hi
    have hset := set_valid_effect { s with can_sock := sock1 } idx
      (!s.relay_state_mask.testBit idx) hm hi
    have hsend := send_status_single_effect
      (can_relay_set { s with can_sock := sock1 } idx (!s.relay_state_mask.testBit idx)).2
      idx wr1
    have hsock : (can_relay_set { s with can_sock := sock1 } idx
        (!s.relay_state_mask.testBit idx)).2.can_sock < 0 := by
      rw [can_relay_set_valid _ idx _ hi]
      exact hclosed
    have hwr : (can_relay_set { s with can_sock := sock1 } idx
        (!s.relay_state_mask.testBit idx)).2.written = s.written := by
      rw [can_relay_set_valid _ idx _ hi]
    rw [handle_toggle_valid _ idx rest len wr1 hi hlen, htog]
    dsimp only
    rw [hsend.1, hsend.2.1, hsend.2.2.2.2.2 hsock]
    exact ⟨hset.2.2.1, hset.2.1, hwr⟩

/-- Witness for C22: the frame `[0x01, 3, 1]` on the mask `0x05`, once with no socket open
and once with the socket open and a full write: both runs return true and leave the mask
`0x0D` with relay 3 driven on, and the run without a socket writes no frame. -/
theorem handle_independent_of_transport_witness :
    (can_relay_handle_can_msg { State.start with relay_state_mask := 0x05 } 0x400
        (some [0x01, 3, 1]) 3 16).1
      = (can_relay_handle_can_msg { State.start with relay_state_mask := 0x05, can_sock := 3 }
          0x400 (some [0x01, 3, 1]) 3 16).1 ∧
    (can_relay_handle_can_msg { State.start with relay_state_mask := 0x05 } 0x400
        (some [0x01, 3, 1]) 3 16).2.relay_state_mask
      = (can_relay_handle_can_msg { State.start with relay_state_mask := 0x05, can_sock := 3 }
          0x400 (some [0x01, 3, 1]) 3 16).2.relay_state_mask ∧
    (can_relay_handle_can_msg { State.start with relay_state_mask := 0x05 } 0x400
        (some [0x01, 3, 1]) 3 16).2.relay_state_mask.testBit 3 = true ∧
    (can_relay_handle_can_msg { State.start with relay_state_mask := 0x05 } 0x400
        (some [0x01, 3, 1]) 3 16).2.hw_set_calls = [(3, true)] ∧
    (can_relay_handle_can_msg { State.start with relay_state_mask := 0x05 } 0x400
        (some [0x01, 3, 1]) 3 16).2.written = [] :=
  have h := handle_independent_of_transport { State.start with relay_state_mask := 0x05 }
    (-1) 3 0x400 (some [0x01, 3, 1]) 3 16 16
  have hb := h.2.1 3 1 [] (by decide) (by decide) (by decide) (by decide)
  ⟨h.1.1, h.1.2.1, hb.1, hb.2.1, hb.2.2⟩

end CanRelay
